import Mathlib

/-!
Shallow embedding of the pdf-poly-lingo backend (src/backend/…) and proofs
about its claims.  Python handlers become pure Lean functions; the DynamoDB
table becomes an association list keyed by `request_id`; external services
(S3, Amazon Translate, Textract, SNS) become explicit parameters or parts of
an effect-carrying `World` state.  All string manipulation is re-implemented
over `List Char` so that the kernel can evaluate it on concrete inputs.
-/

namespace PolyLingo

/-! ## String helpers (faithful to the Python string operations used) -/

/-- `needle.isPrefixOf`-based substring test: embeds Python's `needle in hay`
(`"" in s` is `True` in Python, matched by the base case). -/
def subIn (needle : List Char) : List Char → Bool
  | [] => needle.isEmpty
  | c :: t => needle.isPrefixOf (c :: t) || subIn needle t

/-- Python `needle in hay` on strings. -/
def containsStr (hay needle : String) : Bool := subIn needle.data hay.data

/-- Python `s.startswith(p)`. -/
def startsWithStr (s p : String) : Bool := p.data.isPrefixOf s.data

/-- Python `s.endswith(p)`. -/
def endsWithStr (s p : String) : Bool := p.data.isSuffixOf s.data

/-- Python `s.lower()` (ASCII letters; the keys and extensions handled by the
code are ASCII). -/
def toLowerStr (s : String) : String := String.mk (s.data.map Char.toLower)

/-- Python `s[:n]` (slicing by code points). -/
def strTake (s : String) (n : Nat) : String := String.mk (s.data.take n)

/-- Length in code points. -/
def strLen (s : String) : Nat := s.data.length

/-- Positions of a character in a character list. -/
def charPositions (c : Char) (cs : List Char) : List Nat :=
  (List.range cs.length).filter (fun i => cs.getD i ' ' = c)

/-- Python `s.split(sep)` for a one-character separator, on char lists.
`"".split("/") = [""]` is matched by the base case. -/
def splitOnChar (sep : Char) : List Char → List (List Char)
  | [] => [[]]
  | c :: t =>
    let r := splitOnChar sep t
    if c = sep then [] :: r
    else
      match r with
      | h :: t2 => (c :: h) :: t2
      | [] => [[c]]

/-- Python `key.split("/")`. -/
def splitSlash (s : String) : List String := (splitOnChar '/' s.data).map String.mk

/-- Python `os.path.splitext(s)[1]` for a path without separators (the code
always applies it to a bare filename or to the last path component): the
extension starts at the last dot, unless every character before that dot is
itself a dot. -/
def splitextExt (s : String) : String :=
  let cs := s.data
  let lead := (cs.takeWhile (fun c => c = '.')).length
  match ((charPositions '.' cs).filter (fun i => lead ≤ i)).getLast? with
  | some i => String.mk (cs.drop i)
  | none => ""

/-- Python `os.path.splitext(s)[0]` under the same no-separator assumption. -/
def splitextBase (s : String) : String :=
  let cs := s.data
  let lead := (cs.takeWhile (fun c => c = '.')).length
  match ((charPositions '.' cs).filter (fun i => lead ≤ i)).getLast? with
  | some i => String.mk (cs.take i)
  | none => s

/-! ## Job Status Store (the DynamoDB table)

`put_item` replaces the whole item for a key; `update_item` with a `SET`
expression merges fields into the existing item (and creates the item when
the key is absent, as DynamoDB does). -/

/-- A job record as stored in the DynamoDB table.  `status` is modelled as an
always-present string because every write in the code sets it. -/
structure JobRecord where
  job_id : Option String := none
  status : String := ""
  target_language : Option String := none
  original_filename : Option String := none
  output_key : Option String := none
  output_bucket : Option String := none
  error : Option String := none
deriving Repr, DecidableEq

/-- The table, keyed by `request_id`. -/
abbrev Store := List (String × JobRecord)

/-- DynamoDB `get_item`. -/
def getItem (t : Store) (rid : String) : Option JobRecord :=
  (t.find? (fun p => p.1 == rid)).map (fun p => p.2)

/-- DynamoDB `put_item`: replaces the whole item for the key (or inserts). -/
def putItem (t : Store) (rid : String) (r : JobRecord) : Store :=
  if t.any (fun p => p.1 == rid) then
    t.map (fun p => if p.1 == rid then (rid, r) else p)
  else (rid, r) :: t

/-- The field update performed by the `SET #s = :s, output_key = :k,
output_bucket = :b` expressions in the notification and status handlers. -/
def setComplete (r : JobRecord) (k b : String) : JobRecord :=
  { r with status := "complete", output_key := some k, output_bucket := some b }

/-- DynamoDB `update_item` with that `SET` expression: merges into the
existing item, or creates a fresh item when the key is absent. -/
def updateComplete (t : Store) (rid k b : String) : Store :=
  if t.any (fun p => p.1 == rid) then
    t.map (fun p => if p.1 == rid then (p.1, setComplete p.2 k b) else p)
  else (rid, setComplete {} k b) :: t

/-! ## Upload Intake (src/backend/upload_proxy/index.py) -/

/-- `SYNC_MAX_BYTES = 100 * 1024` — the sync `TranslateDocument` limit. -/
def SYNC_MAX_BYTES : Nat := 100 * 1024

/-- The `content_type_map` dict in the upload handler. -/
def contentTypeOfExt (ext : String) : String :=
  if ext = ".html" then "text/html"
  else if ext = ".htm" then "text/html"
  else if ext = ".txt" then "text/plain"
  else if ext = ".pdf" then "application/pdf"
  else "application/octet-stream"

/-- The parsed request body of the upload handler.  `file` holds the decoded
bytes when the base64 `file` field is present and non-empty (the code checks
`if not file_b64` before decoding); `target_language`/`source_language` are
`none` exactly when the JSON key is absent. -/
structure UploadBody where
  file : Option (List Nat) := none
  filename : String := "document"
  target_language : Option String := none
  source_language : Option String := none

/-- Python `body.get("source_language") or "auto"`: both a missing key and an
empty string fall back to `"auto"`. -/
def sourceLangOrAuto (s : Option String) : String :=
  match s with
  | none => "auto"
  | some v => if v = "" then "auto" else v

/-- What the upload handler returns to the client. -/
inductive UploadOutcome where
  | badRequest (error : String)
  | syncTranslated (translated : List Nat) (filename : String)
  | asyncStarted (request_id : String) (key : String)
deriving Repr, DecidableEq

/-- An object written to S3 by `put_object` in the upload handler, with its
durable metadata. -/
structure StoredObject where
  bucket : String
  key : String
  body : List Nat
  contentType : String
  targetLangMeta : String
  sourceLangMeta : String
deriving Repr, DecidableEq

/-- The full effect of one upload-handler invocation. -/
structure UploadEffects where
  outcome : UploadOutcome
  stored : List StoredObject
  table : Store
deriving Repr, DecidableEq

/-- The initial record written by the intake's slow path: `status =
"processing"` with the descriptive metadata. -/
def intakeRecord (target_lang filename : String) : JobRecord :=
  { status := "processing", target_language := some target_lang,
    original_filename := some filename }

/-- `upload_proxy.handler`.  `translateSync` is the external
`TranslateDocument` call `(content, contentType, sourceLang, targetLang) ↦
translated bytes`; `requestId` is the `uuid4` the handler would generate;
`tableName` is the optional `TABLE_NAME` environment variable. -/
def uploadHandler (translateSync : List Nat → String → String → String → List Nat)
    (requestId inputBucket : String) (tableName : Option String)
    (body : UploadBody) (t : Store) : UploadEffects :=
  let target_lang := body.target_language.getD "es"
  let source_lang := sourceLangOrAuto body.source_language
  match body.file with
  | none => ⟨.badRequest "Missing 'file' (base64)", [], t⟩
  | some content =>
    let ext := toLowerStr (splitextExt body.filename)
    let content_type := contentTypeOfExt ext
    if content.length ≤ SYNC_MAX_BYTES ∧
        (content_type = "text/html" ∨ content_type = "text/plain") then
      ⟨.syncTranslated (translateSync content content_type source_lang target_lang)
        body.filename, [], t⟩
    else if content.length > 5 * 1024 * 1024 then
      ⟨.badRequest "File too large (max 5MB)", [], t⟩
    else
      let key := "uploads/" ++ requestId ++ "/" ++ body.filename
      let obj : StoredObject :=
        ⟨inputBucket, key, content, content_type, target_lang, source_lang⟩
      let rec0 := intakeRecord target_lang body.filename
      let t2 := match tableName with
        | some _ => putItem t requestId rec0
        | none => t
      ⟨.asyncStarted requestId key, [obj], t2⟩

/-! ## Translation Orchestrator (src/backend/translate_trigger/index.py) -/

/-- `BATCH_TYPES = {".html", ".htm", ".txt"}`. -/
def BATCH_TYPES : List String := [".html", ".htm", ".txt"]

/-- `"." + key.rsplit(".", 1)[-1].lower() if "." in key else ""` — note this
is computed over the whole storage key. -/
def extOfKey (key : String) : String :=
  let cs := key.data
  match (charPositions '.' cs).getLast? with
  | some i => "." ++ toLowerStr (String.mk (cs.drop (i + 1)))
  | none => ""

/-- `key.rsplit("/", 1)[0] + "/"`. -/
def prefixOfKey (key : String) : String :=
  let cs := key.data
  match (charPositions '/' cs).getLast? with
  | some i => String.mk (cs.take i) ++ "/"
  | none => key ++ "/"

/-- `parts = key.split("/"); request_id = parts[1] if len(parts) >= 2 else
None`, with `""` standing for `None` (both fail the later `if not request_id`
truthiness check), as computed in both `process_upload` and
`_record_failure`. -/
def ridOfKey (key : String) : String :=
  let parts := splitSlash key
  if parts.length ≥ 2 then parts.getD 1 "" else ""

/-- `_content_type` in the trigger (defaults to `text/plain`). -/
def batchContentType (ext : String) : String :=
  if ext = ".html" then "text/html"
  else if ext = ".htm" then "text/html"
  else if ext = ".txt" then "text/plain"
  else "text/plain"

/-- The environment variables the trigger reads. -/
structure TriggerEnv where
  inputBucket : String := "in"
  outputBucket : String := "out"
  tempBucket : String := "tmp"
  tableName : Option String := some "jobs"
deriving Repr

/-- The object metadata returned by `head_object`: the `target-language` and
`source-language` entries, each `none` when the map lacks the key. -/
structure HeadMeta where
  targetLanguage : Option String := none
  sourceLanguage : Option String := none
deriving Repr, DecidableEq

/-- Outcome of the Textract poll-and-paginate sequence, collapsed to its
result: the concatenated block list on success (pairs of `BlockType` and
`Text`), the `StatusMessage` on failure, or a poll-budget timeout. -/
inductive ExtractionResult where
  | succeeded (blocks : List (String × String))
  | failed (msg : String)
  | timedOut
deriving Repr

/-- One `start_text_translation_job` request. -/
structure BatchJobCall where
  inputUri : String
  outputUri : String
  sourceLang : String
  targetCodes : List String
  contentType : String
deriving Repr, DecidableEq

/-- A text object written to the temp bucket by the PDF path. -/
structure TempObject where
  bucket : String
  key : String
  text : String
deriving Repr, DecidableEq

/-- The mutable world the orchestrator acts on: the job table, the log of
batch jobs started (the external Translate service assigns a fresh opaque
`JobId` per call, modelled by the counter), and the temp-bucket objects. -/
structure World where
  table : Store := []
  jobsStarted : List BatchJobCall := []
  jobCounter : Nat := 0
  tempObjects : List TempObject := []
deriving Repr

/-- The empty initial world. -/
def World.empty : World := {}

/-- `_start_batch_job`: records the call and returns the fresh external job
id. -/
def startBatchJob (w : World) (call : BatchJobCall) : World × String :=
  ({ w with jobsStarted := w.jobsStarted ++ [call], jobCounter := w.jobCounter + 1 },
   "job-" ++ toString w.jobCounter)

/-- Python `"\n".join(text_blocks)`: the empty string for `[]`, the single
element for `[s]`, newline-separated otherwise. -/
def joinLines : List String → String
  | [] => ""
  | [s] => s
  | s :: rest => s ++ "\n" ++ joinLines rest

/-- `full_text.strip()` is empty iff every character is whitespace. -/
def isStrippedEmpty (s : String) : Bool := s.data.all (fun c => c.isWhitespace)

/-- `_process_pdf`: run Textract (its polled outcome is `extraction`), check
for extractable text, store the extracted text in the temp bucket, and start
the batch job on it.  `extractToken` is the timestamp-derived
`pdf-extract-{int(time.time())}` token.  Failures are returned as
`Except.error` (the Python exceptions), with the world effects made so far. -/
def processPdf (env : TriggerEnv) (extraction : ExtractionResult)
    (extractToken : String) (source_lang : String) (target_codes : List String)
    (w : World) : World × Except String String :=
  let temp_pre := "temp/" ++ extractToken ++ "/"
  match extraction with
  | .failed msg => (w, .error msg)
  | .timedOut => (w, .error "Textract job timed out")
  | .succeeded blocks =>
    let text_blocks := (blocks.filter (fun b => b.1 = "LINE")).map (fun b => b.2)
    let full_text := if text_blocks.isEmpty then "" else joinLines text_blocks
    if isStrippedEmpty full_text then
      (w, .error "No text could be extracted from this PDF. It may be image-only, scanned, or use an unsupported format.")
    else
      let txt_key := temp_pre ++ "extracted.txt"
      let w2 := { w with tempObjects := w.tempObjects ++ [⟨env.tempBucket, txt_key, full_text⟩] }
      let input_uri := "s3://" ++ env.tempBucket ++ "/" ++ temp_pre
      let output_uri := "s3://" ++ env.outputBucket ++ "/"
      let (w3, jid) := startBatchJob w2
        ⟨input_uri, output_uri, source_lang, target_codes, "text/plain"⟩
      (w3, .ok jid)

/-- The item written by the orchestrator upsert (step 5 of the algorithm):
`put_item` with `job_id`, `status = "in_progress"`, `target_language` and
`original_filename`. -/
def orchestratorRecord (job_id target_lang original_filename : String) : JobRecord :=
  { job_id := some job_id, status := "in_progress",
    target_language := some target_lang,
    original_filename := some original_filename }

/-- The item written by `_record_failure`: only `request_id`, `status` and
the truncated `error` (a `put_item`, so every other attribute is dropped). -/
def failureRecord (error : String) : JobRecord :=
  { status := "failed", error := some (strTake error 500) }

/-- The extension-dispatch block of `process_upload` (steps 3 and 4 of the
orchestrator algorithm): direct batch job for text/HTML, Textract
preprocessing for PDF, and the unsupported-format `ValueError` otherwise. -/
def startJobForKey (env : TriggerEnv) (extraction : ExtractionResult)
    (extractToken : String) (source_lang : String) (target_codes : List String)
    (key : String) (w : World) : World × Except String String :=
  let input_uri := "s3://" ++ env.inputBucket ++ "/" ++ prefixOfKey key
  let output_uri := "s3://" ++ env.outputBucket ++ "/"
  let ext := extOfKey key
  if BATCH_TYPES.contains ext then
    let (w2, jid) := startBatchJob w
      ⟨input_uri, output_uri, source_lang, target_codes, batchContentType ext⟩
    (w2, Except.ok jid)
  else if ext = ".pdf" then
    processPdf env extraction extractToken source_lang target_codes w
  else
    (w, Except.error ("Unsupported format: " ++ ext ++ ". Use HTML, TXT, or PDF."))

/-- `process_upload`.  `headMeta` is the eventual outcome of the
`head_object` retry loop (`none` when every attempt got a 404, which the code
re-raises).  Returns the world with its effects plus either the started job
id or the raised exception message. -/
def processUpload (env : TriggerEnv) (headMeta : Option HeadMeta)
    (extraction : ExtractionResult) (extractToken : String)
    (key : String) (w : World) : World × Except String String :=
  match headMeta with
  | none => (w, .error "404 Not Found: head_object")
  | some meta =>
    let target_lang := meta.targetLanguage.getD "es"
    let source_lang := sourceLangOrAuto meta.sourceLanguage
    let target_codes := if target_lang ≠ "" then [target_lang] else ["es"]
    match startJobForKey env extraction extractToken source_lang target_codes key w with
    | (w2, .error e) => (w2, .error e)
    | (w2, .ok job_id) =>
      let request_id := ridOfKey key
      let original_filename := ((splitSlash key).getLast?).getD "document"
      let newRec := orchestratorRecord job_id target_lang original_filename
      let w3 :=
        match env.tableName with
        | some _ =>
          if request_id ≠ "" then { w2 with table := putItem w2.table request_id newRec }
          else w2
        | none => w2
      (w3, .ok job_id)

/-- `_record_failure`: writes (replaces) the failed record, with the error
truncated to 500 characters. -/
def recordFailure (tableName : Option String) (key error : String) (t : Store) : Store :=
  let request_id := ridOfKey key
  match tableName with
  | some _ =>
    if request_id ≠ "" then putItem t request_id (failureRecord error)
    else t
  | none => t

/-- The trigger `handler` for a single S3 event record: the `uploads/` prefix
and directory-marker guards, then `process_upload` with failures routed to
`_record_failure`. -/
def handleRecord (env : TriggerEnv) (headMeta : Option HeadMeta)
    (extraction : ExtractionResult) (extractToken : String)
    (key : String) (w : World) : World :=
  if ¬ startsWithStr key "uploads/" ∨ endsWithStr key "/" then w
  else
    match processUpload env headMeta extraction extractToken key w with
    | (w2, .ok _) => w2
    | (w2, .error e) => { w2 with table := recordFailure env.tableName key e w2.table }

/-! ## Completion Notifier (src/backend/notification_handler/index.py) -/

/-- The fixed auxiliary-metadata suffix. -/
def AUX_SUFFIX : String := ".auxiliary-translation-details.json"

/-- The auxiliary-artifact filter shared by the notifier and the resolver:
keys ending in the metadata suffix or containing a `details/` sub-path. -/
def isAuxKey (key : String) : Bool :=
  endsWithStr key AUX_SUFFIX || containsStr key "/details/"

/-- Capture of `[^/]+`: the characters up to the next `/` or the end. -/
def takeUntilSlash : List Char → List Char
  | [] => []
  | c :: t => if c = '/' then [] else c :: takeUntilSlash t

/-- `re.search(marker + "([^/]+)", key)`: at each position, match the marker
followed by at least one non-slash character; advance one character on a
failed match, exactly as the regex engine scans. -/
def findAfterMarker (marker : List Char) : List Char → Option (List Char)
  | [] => none
  | c :: t =>
    if marker.isPrefixOf (c :: t) then
      let captured := takeUntilSlash ((c :: t).drop marker.length)
      if captured.isEmpty then findAfterMarker marker t else some captured
    else findAfterMarker marker t

/-- `re.search(r"TranslateText-([^/]+)", key)` in the notifier. -/
def extractJobId (key : String) : Option String :=
  (findAfterMarker "TranslateText-".data key.data).map String.mk

/-- The notifier `handler` for one S3 event record: skip auxiliary artifacts,
extract the external job id from the key, scan the table for the first record
whose `job_id` matches, and update it to `complete` with the output
location.  (The SNS publish is advisory and carries no table effect.) -/
def notifyRecord (tableName : Option String) (bucket key : String) (t : Store) : Store :=
  if isAuxKey key then t
  else
    match extractJobId key, tableName with
    | some jid, some _ =>
      match t.find? (fun p => p.2.job_id == some jid) with
      | some pr => updateComplete t pr.1 key bucket
      | none => t
    | _, _ => t

/-! ## Status Resolver (src/backend/status_handler/index.py) -/

/-- A presigned GET reference produced by `generate_presigned_url`. -/
structure DownloadRef where
  bucket : String
  key : String
  expiresIn : Nat
  disposition : String
deriving Repr, DecidableEq

/-- The JSON body of a status response. -/
structure StatusResponse where
  statusCode : Nat
  status : String := ""
  request_id : String := ""
  job_id : Option String := none
  error : Option String := none
  download_url : Option DownloadRef := none
deriving Repr, DecidableEq

/-- `_build_content_disposition`. -/
def buildContentDisposition (row : JobRecord) : String :=
  let output_key := row.output_key.getD ""
  let original := row.original_filename.getD "document"
  let target_lang := row.target_language.getD "es"
  let base0 := splitextBase original
  let base := if base0 = "" then "document" else base0
  let lastComp := ((splitSlash output_key).getLast?).getD ""
  let ext0 := splitextExt lastComp
  let ext := if ext0 = "" then ".txt" else ext0
  "attachment; filename=\"" ++ base ++ "_translated_" ++ target_lang ++ ext ++ "\""

/-- The candidate filter inside `_check_translate_complete`: the key contains
the job id, does not end in the auxiliary suffix, and has no `/details/`
sub-path. -/
def candOk (jid key : String) : Bool :=
  containsStr key jid &&
    !(endsWithStr key AUX_SUFFIX || containsStr key "/details/")

/-- The fold of `_check_translate_complete` over the listed objects, carrying
`(best_key, best_size)` with `best_size` starting at `-1`. -/
def selectBestAux (jid : String) (best : Option String × Int) :
    List (String × Nat) → Option String × Int
  | [] => best
  | kv :: rest =>
    selectBestAux jid
      (if candOk jid kv.1 ∧ (kv.2 : Int) > best.2 then (some kv.1, (kv.2 : Int)) else best)
      rest

/-- The key selected by `_check_translate_complete` from the output-bucket
listing (largest non-auxiliary key containing the job id). -/
def selectBest (jid : String) (listing : List (String × Nat)) : Option String :=
  (selectBestAux jid (none, -1) listing).1

/-- `_check_translate_complete`.  `describeResult` is the outcome of
`describe_text_translation_job` (`none` for a `ClientError`, otherwise the
reported `JobStatus`); `listing` is the output-bucket listing as
`(key, size)` pairs (`none` for a `ClientError` while listing).  Returns the
`(output_key?, output_bucket?)` pair and the table afterwards. -/
def checkTranslateComplete (describeResult : Option String)
    (listing : Option (List (String × Nat))) (outputBucket requestId jid : String)
    (t : Store) : (Option String × Option String) × Store :=
  match describeResult with
  | none => ((none, none), t)
  | some js =>
    if js ≠ "COMPLETED" then ((none, none), t)
    else
      match listing with
      | none => ((none, none), t)
      | some objs =>
        match selectBest jid objs with
        | some bk => ((some bk, some outputBucket), updateComplete t requestId bk outputBucket)
        | none => ((none, none), t)

/-- Python truthiness of an optional string field (`row.get(...)`). -/
def truthy (s : Option String) : Bool :=
  match s with
  | none => false
  | some v => v ≠ ""

/-- The response-assembly tail of the status handler: the base body with
`request_id`/`status`/`job_id`, the `error` field added only for truthy
errors on `failed`, and the presigned download reference (1-hour expiry,
content disposition from the record) added only for `complete` with truthy
output location. -/
def buildResponse (requestId : String) (job_id : Option String) (status1 : String)
    (row1 : JobRecord) : StatusResponse :=
  let base : StatusResponse :=
    { statusCode := 200, status := status1, request_id := requestId, job_id := job_id }
  let withErr :=
    if status1 = "failed" ∧ truthy row1.error then { base with error := row1.error }
    else base
  let ref : DownloadRef :=
    ⟨row1.output_bucket.getD "", row1.output_key.getD "", 3600,
     buildContentDisposition row1⟩
  if status1 = "complete" ∧ truthy row1.output_key ∧ truthy row1.output_bucket then
    { withErr with download_url := some ref }
  else withErr

/-- The status `handler`.  `describeJob` is the external
`describe_text_translation_job` per job id; `listing` is the output-bucket
listing.  Returns the response and the table afterwards. -/
def statusHandler (describeJob : String → Option String)
    (listing : Option (List (String × Nat))) (outputBucket requestId : String)
    (t : Store) : StatusResponse × Store :=
  match getItem t requestId with
  | none => ({ statusCode := 200, status := "pending", request_id := requestId }, t)
  | some row =>
    let job_id := row.job_id
    let step :=
      match job_id with
      | some jid =>
        if row.status = "in_progress" ∨ row.status = "processing" then
          checkTranslateComplete (describeJob jid) listing outputBucket requestId jid t
        else ((none, none), t)
      | none => ((none, none), t)
    let reconciled := step.1
    let t2 := step.2
    let outcome :=
      match reconciled with
      | (some ok, some ob) =>
        ("complete",
         { row with output_key := some (row.output_key.getD ok),
                    output_bucket := some (row.output_bucket.getD ob) })
      | _ => (row.status, row)
    (buildResponse requestId job_id outcome.1 outcome.2, t2)

/-! ## Presigned-URL generator (src/backend/presigned_url/index.py) -/

/-- `_content_type` in the presigned handler (includes `.pdf`; defaults to
`application/octet-stream`). -/
def presignedContentType (ext : String) : String :=
  if ext = ".html" then "text/html"
  else if ext = ".htm" then "text/html"
  else if ext = ".txt" then "text/plain"
  else if ext = ".pdf" then "application/pdf"
  else "application/octet-stream"

/-- What the presigned-URL handler bakes into the generated PUT URL. -/
structure PresignedResult where
  key : String
  request_id : String
  metaTarget : String
  metaSource : String
  contentType : String
  expiresIn : Nat
deriving Repr, DecidableEq

/-- `presigned_url.handler`: the body fields with their defaults, the fresh
`request_id`, the `uploads/{request_id}/{filename}` key, and the
target/source-language metadata attached to the presigned PUT. -/
def presignedHandler (requestId : String) (filename target source : Option String) :
    PresignedResult :=
  let fn := filename.getD "document"
  let target_language := target.getD "es"
  let source_language := sourceLangOrAuto source
  let ext0 := toLowerStr (splitextExt fn)
  let ext := if ext0 = "" then ".txt" else ext0
  { key := "uploads/" ++ requestId ++ "/" ++ fn, request_id := requestId,
    metaTarget := target_language, metaSource := source_language,
    contentType := presignedContentType ext, expiresIn := 3600 }

/-! ## Operation sequences over the Job Status Store

All store-affecting operations of the system, routed through the handler
embeddings above, so that invariants can be stated over arbitrary
interleavings (including event redeliveries). -/

/-- One operation: an intake request, a delivery of an "object created"
event to the orchestrator, a delivery of an output-bucket event to the
notifier, or a status query. -/
inductive Op where
  | intake (requestId inputBucket : String) (body : UploadBody)
  | trigger (headMeta : Option HeadMeta) (extraction : ExtractionResult)
      (extractToken key : String)
  | notify (bucket key : String)
  | resolve (describeJob : String → Option String)
      (listing : Option (List (String × Nat))) (requestId : String)

/-- The notifier and resolver operations (the two store writers that are not
plain whole-item overwrites). -/
def Op.isNotifyOrResolve : Op → Bool
  | .notify _ _ => true
  | .resolve _ _ _ => true
  | _ => false

/-- The world transition of each operation.  The intake's sync-translate
callback never touches the table, so it is fixed to a representative
function. -/
def opStep (env : TriggerEnv) (w : World) : Op → World
  | .intake rid ib body =>
    { w with table := (uploadHandler (fun c _ _ _ => c) rid ib env.tableName body w.table).table }
  | .trigger hm ex tok key => handleRecord env hm ex tok key w
  | .notify b k => { w with table := notifyRecord env.tableName b k w.table }
  | .resolve d l rid => { w with table := (statusHandler d l env.outputBucket rid w.table).2 }

/-- Run a sequence of operations. -/
def runOps (env : TriggerEnv) (ops : List Op) (w : World) : World :=
  ops.foldl (opStep env) w

/-! ## Reachability invariant of the store -/

/-- Per-record invariant maintained by every write in the code: a `failed`
record carries no job linkage (the failure write replaces the whole item), an
error is carried only by `failed` records, and a recorded output key is never
an auxiliary artifact. -/
def recInv (r : JobRecord) : Prop :=
  (r.status = "failed" → r.job_id = none) ∧
  (r.error ≠ none → r.status = "failed") ∧
  (∀ k, r.output_key = some k → isAuxKey k = false)

/-- Store invariant: at most one record per `request_id`, and every record
satisfies `recInv`. -/
def StoreInv (t : Store) : Prop :=
  (t.map Prod.fst).Nodup ∧ ∀ p ∈ t, recInv p.2

/-! ### Store-operation lemmas -/

theorem fst_putRep_fun (rid : String) (r : JobRecord) (p : String × JobRecord) :
    (if p.1 == rid then (rid, r) else p).1 = p.1 := by
  by_cases hb : (p.1 == rid) = true
  · rw [if_pos hb]; exact (beq_iff_eq.mp hb).symm
  · rw [if_neg hb]

theorem fst_updRep_fun (rid k b : String) (p : String × JobRecord) :
    (if p.1 == rid then (p.1, setComplete p.2 k b) else p).1 = p.1 := by
  by_cases hb : (p.1 == rid) = true
  · rw [if_pos hb]
  · rw [if_neg hb]

theorem map_fst_putRep (t : Store) (rid : String) (r : JobRecord) :
    (t.map (fun p => if p.1 == rid then (rid, r) else p)).map Prod.fst
      = t.map Prod.fst := by
  rw [List.map_map]
  exact List.map_congr_left (fun a _ => fst_putRep_fun rid r a)

theorem map_fst_updRep (t : Store) (rid k b : String) :
    (t.map (fun p => if p.1 == rid then (p.1, setComplete p.2 k b) else p)).map Prod.fst
      = t.map Prod.fst := by
  rw [List.map_map]
  exact List.map_congr_left (fun a _ => fst_updRep_fun rid k b a)

theorem nodup_keys_cons_of_not_any (t : Store) (rid : String) (r : JobRecord)
    (hc : ¬ t.any (fun p => p.1 == rid) = true)
    (h : (t.map Prod.fst).Nodup) : (((rid, r) :: t).map Prod.fst).Nodup := by
  simp only [List.map_cons, List.nodup_cons]
  refine ⟨?_, h⟩
  intro hmem
  rcases List.mem_map.mp hmem with ⟨p, hp, hfst⟩
  exact hc (List.any_eq_true.mpr ⟨p, hp, beq_iff_eq.mpr hfst⟩)

theorem storeInv_putItem (t : Store) (rid : String) (r : JobRecord)
    (ht : StoreInv t) (hr : recInv r) : StoreInv (putItem t rid r) := by
  obtain ⟨hnd, hrec⟩ := ht
  unfold putItem
  by_cases hc : t.any (fun p => p.1 == rid) = true
  · rw [if_pos hc]
    refine ⟨by rw [map_fst_putRep]; exact hnd, ?_⟩
    intro p hp
    rcases List.mem_map.mp hp with ⟨q, hq, rfl⟩
    by_cases hb : (q.1 == rid) = true
    · simpa [hb] using hr
    · simpa [hb] using hrec q hq
  · rw [if_neg hc]
    refine ⟨nodup_keys_cons_of_not_any t rid r hc hnd, ?_⟩
    intro p hp
    rcases List.mem_cons.mp hp with rfl | hp2
    · exact hr
    · exact hrec p hp2

theorem entry_eq_of_nodup (t : Store) (p q : String × JobRecord)
    (h : (t.map Prod.fst).Nodup) (hp : p ∈ t) (hq : q ∈ t) (hk : p.1 = q.1) :
    p = q := by
  induction t with
  | nil => cases hp
  | cons hd tl ih =>
    simp only [List.map_cons, List.nodup_cons] at h
    rcases List.mem_cons.mp hp with rfl | hp2
    · rcases List.mem_cons.mp hq with rfl | hq2
      · rfl
      · exact absurd (hk ▸ List.mem_map.mpr ⟨q, hq2, rfl⟩) h.1
    · rcases List.mem_cons.mp hq with rfl | hq2
      · exact absurd (hk ▸ List.mem_map.mpr ⟨p, hp2, rfl⟩) h.1
      · exact ih h.2 hp2 hq2

theorem getItem_mem (t : Store) (rid : String) (r : JobRecord)
    (h : getItem t rid = some r) : (rid, r) ∈ t := by
  unfold getItem at h
  rcases Option.map_eq_some'.mp h with ⟨p, hfind, hsnd⟩
  have hmem := List.mem_of_find?_eq_some hfind
  have hpred := List.find?_some hfind
  have h1 : p.1 = rid := beq_iff_eq.mp hpred
  have : p = (rid, r) := by
    cases p
    simp_all
  exact this ▸ hmem

theorem any_of_getItem (t : Store) (rid : String) (r : JobRecord)
    (h : getItem t rid = some r) : t.any (fun p => p.1 == rid) = true :=
  List.any_eq_true.mpr ⟨(rid, r), getItem_mem t rid r h, beq_iff_eq.mpr rfl⟩

theorem find?_cons_pos {α : Type} (p : α → Bool) (a : α) (l : List α)
    (h : p a = true) : List.find? p (a :: l) = some a := by
  simp [List.find?_cons, h]

theorem find?_cons_neg {α : Type} (p : α → Bool) (a : α) (l : List α)
    (h : ¬ p a = true) : List.find? p (a :: l) = List.find? p l := by
  have hf : p a = false := by
    cases hpa : p a
    · rfl
    · exact absurd hpa h
  simp [List.find?_cons, hf]

theorem getItem_updRep (t : Store) (rid k b : String) (r : JobRecord)
    (h : getItem t rid = some r) :
    getItem (t.map (fun p => if p.1 == rid then (p.1, setComplete p.2 k b) else p)) rid
      = some (setComplete r k b) := by
  induction t with
  | nil => simp [getItem] at h
  | cons hd tl ih =>
    by_cases hb : (hd.1 == rid) = true
    · have hdef : (if (hd.1 == rid) = true then (hd.1, setComplete hd.2 k b) else hd)
        = (hd.1, setComplete hd.2 k b) := if_pos hb
      unfold getItem at h ⊢
      rw [find?_cons_pos (fun p => p.1 == rid) hd tl hb] at h
      have h2 : hd.2 = r := by simpa using h
      simp only [List.map_cons, hdef]
      rw [find?_cons_pos (fun p => p.1 == rid) (hd.1, setComplete hd.2 k b) _ hb]
      simp [h2]
    · have hdef : (if (hd.1 == rid) = true then (hd.1, setComplete hd.2 k b) else hd)
        = hd := if_neg hb
      unfold getItem at h ⊢
      rw [find?_cons_neg (fun p => p.1 == rid) hd tl hb] at h
      simp only [List.map_cons, hdef]
      rw [find?_cons_neg (fun p => p.1 == rid) hd _ hb]
      exact ih h

theorem getItem_updateComplete_self (t : Store) (rid k b : String) (r : JobRecord)
    (h : getItem t rid = some r) :
    getItem (updateComplete t rid k b) rid = some (setComplete r k b) := by
  unfold updateComplete
  rw [if_pos (any_of_getItem t rid r h)]
  exact getItem_updRep t rid k b r h

theorem getItem_updRep_ne (t : Store) (rid rid2 k b : String) (h : rid ≠ rid2) :
    getItem (t.map (fun p => if p.1 == rid2 then (p.1, setComplete p.2 k b) else p)) rid
      = getItem t rid := by
  induction t with
  | nil => rfl
  | cons hd tl ih =>
    by_cases hb : (hd.1 == rid2) = true
    · have hdef : (if (hd.1 == rid2) = true then (hd.1, setComplete hd.2 k b) else hd)
        = (hd.1, setComplete hd.2 k b) := if_pos hb
      have hno : ¬ (hd.1 == rid) = true := by
        intro hx
        exact h ((beq_iff_eq.mp hx).symm.trans (beq_iff_eq.mp hb))
      unfold getItem
      simp only [List.map_cons, hdef]
      rw [find?_cons_neg (fun p => p.1 == rid) (hd.1, setComplete hd.2 k b) _ hno,
          find?_cons_neg (fun p => p.1 == rid) hd tl hno]
      exact ih
    · have hdef : (if (hd.1 == rid2) = true then (hd.1, setComplete hd.2 k b) else hd)
        = hd := if_neg hb
      unfold getItem
      simp only [List.map_cons, hdef]
      by_cases hd1 : (hd.1 == rid) = true
      · rw [find?_cons_pos (fun p => p.1 == rid) hd _ hd1,
            find?_cons_pos (fun p => p.1 == rid) hd tl hd1]
      · rw [find?_cons_neg (fun p => p.1 == rid) hd _ hd1,
            find?_cons_neg (fun p => p.1 == rid) hd tl hd1]
        exact ih

theorem getItem_updateComplete_ne (t : Store) (rid rid2 k b : String)
    (h : rid ≠ rid2) :
    getItem (updateComplete t rid2 k b) rid = getItem t rid := by
  unfold updateComplete
  by_cases hc : t.any (fun p => p.1 == rid2) = true
  · rw [if_pos hc]
    exact getItem_updRep_ne t rid rid2 k b h
  · rw [if_neg hc]
    unfold getItem
    rw [find?_cons_neg (fun p => p.1 == rid) (rid2, setComplete {} k b) t
      (fun hx => h (beq_iff_eq.mp hx).symm)]

/-! ### Record-invariant helpers -/

theorem recInv_setComplete (r : JobRecord) (k b : String)
    (he : r.error = none) (hk : isAuxKey k = false) : recInv (setComplete r k b) := by
  refine ⟨?_, ?_, ?_⟩
  · intro hs
    exact absurd hs (by simp [setComplete])
  · intro herr
    exact absurd (by simp [setComplete, he] : (setComplete r k b).error = none) herr
  · intro k2 hk2
    have h2 : k = k2 := by simpa [setComplete] using hk2
    exact h2 ▸ hk

theorem recInv_processing (tl fn : String) :
    recInv (intakeRecord tl fn) := by
  refine ⟨?_, ?_, ?_⟩
  · intro h
    have h2 : ("processing" : String) = "failed" := h
    exact absurd h2 (by decide)
  · intro h
    exact absurd rfl h
  · intro k hk
    cases hk

theorem recInv_orchestratorRecord (jid tl fn : String) :
    recInv (orchestratorRecord jid tl fn) := by
  refine ⟨?_, ?_, ?_⟩
  · intro h
    have h2 : ("in_progress" : String) = "failed" := h
    exact absurd h2 (by decide)
  · intro h
    exact absurd rfl h
  · intro k hk
    cases hk

theorem recInv_failureRecord (e : String) :
    recInv (failureRecord e) := by
  refine ⟨?_, ?_, ?_⟩
  · intro h
    rfl
  · intro h
    rfl
  · intro k hk
    cases hk

theorem storeInv_updateComplete (t : Store) (rid k b : String)
    (ht : StoreInv t) (hk : isAuxKey k = false)
    (hnf : ∀ p ∈ t, p.1 = rid → p.2.error = none) :
    StoreInv (updateComplete t rid k b) := by
  obtain ⟨hnd, hrec⟩ := ht
  unfold updateComplete
  by_cases hc : t.any (fun p => p.1 == rid) = true
  · rw [if_pos hc]
    refine ⟨by rw [map_fst_updRep]; exact hnd, ?_⟩
    intro p hp
    rcases List.mem_map.mp hp with ⟨q, hq, rfl⟩
    by_cases hb : (q.1 == rid) = true
    · rw [if_pos hb]
      exact recInv_setComplete q.2 k b (hnf q hq (beq_iff_eq.mp hb)) hk
    · rw [if_neg hb]
      exact hrec q hq
  · rw [if_neg hc]
    refine ⟨nodup_keys_cons_of_not_any t rid _ hc hnd, ?_⟩
    intro p hp
    rcases List.mem_cons.mp hp with rfl | hp2
    · exact recInv_setComplete {} k b rfl hk
    · exact hrec p hp2

/-! ### Table-effect characterizations of the handlers -/

theorem uploadHandler_table_cases (ts : List Nat → String → String → String → List Nat)
    (rid ib : String) (tn : Option String) (body : UploadBody) (t : Store) :
    (uploadHandler ts rid ib tn body t).table = t ∨
    (uploadHandler ts rid ib tn body t).table
      = putItem t rid (intakeRecord (body.target_language.getD "es") body.filename) := by
  unfold uploadHandler
  cases hf : body.file with
  | none => left; rfl
  | some content =>
    dsimp only
    split
    · left; rfl
    · split
      · left; rfl
      · cases tn with
        | none => left; rfl
        | some nm => right; rfl

theorem processPdf_table (env : TriggerEnv) (ex : ExtractionResult)
    (tok sl : String) (tc : List String) (w : World) :
    (processPdf env ex tok sl tc w).1.table = w.table := by
  unfold processPdf
  cases ex with
  | failed msg => rfl
  | timedOut => rfl
  | succeeded blocks =>
    dsimp only
    split
    · rfl
    · split
      · rfl
      · rfl

theorem startJobForKey_table (env : TriggerEnv) (ex : ExtractionResult)
    (tok sl : String) (tc : List String) (key : String) (w : World) :
    (startJobForKey env ex tok sl tc key w).1.table = w.table := by
  unfold startJobForKey
  dsimp only
  split
  · rfl
  · split
    · exact processPdf_table env ex tok sl tc w
    · rfl

theorem processUpload_some_eq (env : TriggerEnv) (meta : HeadMeta)
    (ex : ExtractionResult) (tok key : String) (w : World) :
    processUpload env (some meta) ex tok key w =
      (match startJobForKey env ex tok (sourceLangOrAuto meta.sourceLanguage)
          (if meta.targetLanguage.getD "es" ≠ "" then [meta.targetLanguage.getD "es"] else ["es"])
          key w with
       | (w2, Except.error e) => (w2, Except.error e)
       | (w2, Except.ok job_id) =>
         ((match env.tableName with
           | some _ =>
             if ridOfKey key ≠ "" then
               let r0 := orchestratorRecord job_id (meta.targetLanguage.getD "es")
                 (((splitSlash key).getLast?).getD "document")
               { w2 with table := putItem w2.table (ridOfKey key) r0 }
             else w2
           | none => w2), Except.ok job_id)) := rfl

theorem processUpload_err_table (env : TriggerEnv) (hm : Option HeadMeta)
    (ex : ExtractionResult) (tok key : String) (w w2 : World) (e : String)
    (h : processUpload env hm ex tok key w = (w2, Except.error e)) :
    w2.table = w.table := by
  cases hm with
  | none =>
    have h2 : (w, Except.error "404 Not Found: head_object")
        = ((w2, Except.error e) : World × Except String String) := h
    injection h2 with h3 h4
    rw [← h3]
  | some meta =>
    rw [processUpload_some_eq] at h
    rcases hstep : startJobForKey env ex tok (sourceLangOrAuto meta.sourceLanguage)
        (if meta.targetLanguage.getD "es" ≠ "" then [meta.targetLanguage.getD "es"] else ["es"])
        key w with ⟨ws, res⟩
    rw [hstep] at h
    have hws : ws.table = w.table := by
      have h0 := startJobForKey_table env ex tok (sourceLangOrAuto meta.sourceLanguage)
        (if meta.targetLanguage.getD "es" ≠ "" then [meta.targetLanguage.getD "es"] else ["es"])
        key w
      rw [hstep] at h0
      exact h0
    cases res with
    | error e2 =>
      injection h with h1 h2
      rw [← h1]
      exact hws
    | ok jid =>
      injection h with h1 h2
      cases h2

theorem processUpload_ok_table (env : TriggerEnv) (hm : Option HeadMeta)
    (ex : ExtractionResult) (tok key : String) (w w2 : World) (jid : String)
    (h : processUpload env hm ex tok key w = (w2, Except.ok jid)) :
    w2.table = w.table ∨
    ∃ tl, w2.table = putItem w.table (ridOfKey key)
      (orchestratorRecord jid tl (((splitSlash key).getLast?).getD "document")) := by
  cases hm with
  | none =>
    have h2 : (w, Except.error "404 Not Found: head_object")
        = ((w2, Except.ok jid) : World × Except String String) := h
    injection h2 with h3 h4
    cases h4
  | some meta =>
    rw [processUpload_some_eq] at h
    rcases hstep : startJobForKey env ex tok (sourceLangOrAuto meta.sourceLanguage)
        (if meta.targetLanguage.getD "es" ≠ "" then [meta.targetLanguage.getD "es"] else ["es"])
        key w with ⟨ws, res⟩
    rw [hstep] at h
    have hws : ws.table = w.table := by
      have h0 := startJobForKey_table env ex tok (sourceLangOrAuto meta.sourceLanguage)
        (if meta.targetLanguage.getD "es" ≠ "" then [meta.targetLanguage.getD "es"] else ["es"])
        key w
      rw [hstep] at h0
      exact h0
    cases res with
    | error e2 =>
      injection h with h1 h2
      cases h2
    | ok jid2 =>
      injection h with h1 h2
      injection h2 with h3
      rcases htn : env.tableName with _ | nm
      all_goals rw [htn] at h1
      all_goals dsimp only at h1
      · left
        rw [← h1]
        exact hws
      · by_cases hrid : ridOfKey key ≠ ""
        · rw [if_pos hrid] at h1
          right
          refine ⟨meta.targetLanguage.getD "es", ?_⟩
          rw [← h1, ← h3, hws]
        · rw [if_neg hrid] at h1
          left
          rw [← h1]
          exact hws

theorem recordFailure_cases (tn : Option String) (key e : String) (t : Store) :
    recordFailure tn key e t = t ∨
    recordFailure tn key e t = putItem t (ridOfKey key) (failureRecord e) := by
  unfold recordFailure
  cases tn with
  | none => left; rfl
  | some nm =>
    dsimp only
    split
    · right; rfl
    · left; rfl

theorem handleRecord_table_cases (env : TriggerEnv) (hm : Option HeadMeta)
    (ex : ExtractionResult) (tok key : String) (w : World) :
    (handleRecord env hm ex tok key w).table = w.table ∨
    ∃ r, recInv r ∧
      (handleRecord env hm ex tok key w).table = putItem w.table (ridOfKey key) r := by
  unfold handleRecord
  split
  · left; rfl
  · rcases hpu : processUpload env hm ex tok key w with ⟨w2, res⟩
    cases res with
    | ok jid =>
      dsimp only
      rcases processUpload_ok_table env hm ex tok key w w2 jid hpu with h1 | ⟨tl, h2⟩
      · left; exact h1
      · right
        exact ⟨_, recInv_orchestratorRecord jid tl (((splitSlash key).getLast?).getD "document"), h2⟩
    | error e =>
      dsimp only
      have hw2 : w2.table = w.table := processUpload_err_table env hm ex tok key w w2 e hpu
      rw [hw2]
      rcases recordFailure_cases env.tableName key e w.table with h1 | h2
      · left; exact h1
      · right
        exact ⟨_, recInv_failureRecord e, h2⟩

theorem notifyRecord_table_cases (tn : Option String) (b k : String) (t : Store) :
    notifyRecord tn b k t = t ∨
    ∃ pr jid, pr ∈ t ∧ pr.2.job_id = some jid ∧ isAuxKey k = false ∧
      notifyRecord tn b k t = updateComplete t pr.1 k b := by
  unfold notifyRecord
  by_cases ha : isAuxKey k = true
  · rw [if_pos ha]
    left
    rfl
  · rw [if_neg ha]
    have hax : isAuxKey k = false := by
      cases hv : isAuxKey k
      · rfl
      · exact absurd hv ha
    rcases hjid : extractJobId k with _ | jid
    · left
      rfl
    · rcases htn : tn with _ | nm
      · left
        rfl
      · dsimp only
        rcases hfind : t.find? (fun p => p.2.job_id == some jid) with _ | pr
        all_goals rw [hfind]
        · left
          rfl
        · right
          have hp := List.find?_some hfind
          have hmem := List.mem_of_find?_eq_some hfind
          exact ⟨pr, jid, hmem, beq_iff_eq.mp hp, hax, rfl⟩

/-! ### selectBest lemmas -/

theorem selectBestAux_cand (jid : String) (l : List (String × Nat)) :
    ∀ best : Option String × Int, (∀ k0, best.1 = some k0 → candOk jid k0 = true) →
    ∀ k0, (selectBestAux jid best l).1 = some k0 → candOk jid k0 = true := by
  induction l with
  | nil =>
    intro best hbest k0 h
    exact hbest k0 h
  | cons kv rest ih =>
    intro best hbest k0 h
    unfold selectBestAux at h
    by_cases hc : candOk jid kv.1 ∧ (kv.2 : Int) > best.2
    · rw [if_pos hc] at h
      refine ih _ ?_ k0 h
      intro k1 hk1
      injection hk1 with h2
      rw [← h2]
      exact hc.1
    · rw [if_neg hc] at h
      exact ih best hbest k0 h

theorem selectBest_candOk (jid : String) (objs : List (String × Nat)) (bk : String)
    (h : selectBest jid objs = some bk) : candOk jid bk = true := by
  unfold selectBest at h
  exact selectBestAux_cand jid objs (none, -1) (fun k0 hk0 => by cases hk0) bk h

theorem selectBestAux_keepSome (jid : String) (l : List (String × Nat)) :
    ∀ best : Option String × Int, best.1.isSome = true →
    ((selectBestAux jid best l).1).isSome = true := by
  induction l with
  | nil =>
    intro best hbest
    exact hbest
  | cons kv rest ih =>
    intro best hbest
    unfold selectBestAux
    by_cases hc : candOk jid kv.1 ∧ (kv.2 : Int) > best.2
    · rw [if_pos hc]
      exact ih _ rfl
    · rw [if_neg hc]
      exact ih best hbest

theorem selectBestAux_isSome_of_cand (jid : String) (l : List (String × Nat)) :
    ∀ best : Option String × Int, best.2 = -1 →
    (∃ kv ∈ l, candOk jid kv.1 = true) →
    ((selectBestAux jid best l).1).isSome = true := by
  induction l with
  | nil =>
    intro best hneg hex
    rcases hex with ⟨kv, hkv, _⟩
    cases hkv
  | cons kv rest ih =>
    intro best hneg hex
    unfold selectBestAux
    by_cases hc : candOk jid kv.1 ∧ (kv.2 : Int) > best.2
    · rw [if_pos hc]
      exact selectBestAux_keepSome jid rest _ rfl
    · rw [if_neg hc]
      rcases hex with ⟨kv2, hkv2, hcand2⟩
      rcases List.mem_cons.mp hkv2 with rfl | hmem
      · exfalso
        apply hc
        refine ⟨hcand2, ?_⟩
        rw [hneg]
        have : (0 : Int) ≤ (kv2.2 : Int) := Int.ofNat_nonneg kv2.2
        omega
      · exact ih best hneg ⟨kv2, hmem, hcand2⟩

theorem selectBest_isSome (jid : String) (objs : List (String × Nat))
    (h : ∃ kv ∈ objs, candOk jid kv.1 = true) : (selectBest jid objs).isSome = true := by
  unfold selectBest
  exact selectBestAux_isSome_of_cand jid objs (none, -1) rfl h

theorem candOk_not_aux (jid k : String) (h : candOk jid k = true) :
    isAuxKey k = false := by
  unfold candOk at h
  unfold isAuxKey
  cases hx : endsWithStr k AUX_SUFFIX || containsStr k "/details/"
  · rfl
  · rw [hx] at h
    simp at h

/-! ### status-handler table characterization -/

theorem checkTranslateComplete_cases (dr : Option String)
    (l : Option (List (String × Nat))) (ob rid jid : String) (t : Store) :
    ((checkTranslateComplete dr l ob rid jid t).2 = t ∧
      (checkTranslateComplete dr l ob rid jid t).1 = (none, none)) ∨
    ∃ bk, candOk jid bk = true ∧
      (checkTranslateComplete dr l ob rid jid t).1 = (some bk, some ob) ∧
      (checkTranslateComplete dr l ob rid jid t).2 = updateComplete t rid bk ob := by
  unfold checkTranslateComplete
  rcases dr with _ | js
  · left
    exact ⟨rfl, rfl⟩
  · dsimp only
    by_cases hjs : js ≠ "COMPLETED"
    · rw [if_pos hjs]
      left
      exact ⟨rfl, rfl⟩
    · rw [if_neg hjs]
      rcases l with _ | objs
      · left
        exact ⟨rfl, rfl⟩
      · dsimp only
        rcases hsel : selectBest jid objs with _ | bk
        · left
          exact ⟨rfl, rfl⟩
        · right
          exact ⟨bk, selectBest_candOk jid objs bk hsel, rfl, rfl⟩

theorem statusHandler_table_cases (d : String → Option String)
    (l : Option (List (String × Nat))) (ob rid : String) (t : Store) :
    (statusHandler d l ob rid t).2 = t ∨
    ∃ row jid bk, getItem t rid = some row ∧ row.job_id = some jid ∧
      (row.status = "in_progress" ∨ row.status = "processing") ∧
      candOk jid bk = true ∧
      (statusHandler d l ob rid t).2 = updateComplete t rid bk ob := by
  unfold statusHandler
  rcases hrow : getItem t rid with _ | row
  · left
    rfl
  · dsimp only
    rcases hjid : row.job_id with _ | jid
    · left
      rfl
    · dsimp only
      by_cases hst : row.status = "in_progress" ∨ row.status = "processing"
      · rw [if_pos hst]
        rcases checkTranslateComplete_cases (d jid) l ob rid jid t with ⟨h1, _⟩ | ⟨bk, hcand, _, h2⟩
        · left
          exact h1
        · right
          exact ⟨row, jid, bk, rfl, hjid, hst, hcand, h2⟩
      · rw [if_neg hst]
        left
        rfl

/-! ### Invariant preservation over operation sequences -/

theorem storeInv_opStep (env : TriggerEnv) (w : World) (op : Op)
    (h : StoreInv w.table) : StoreInv (opStep env w op).table := by
  cases op with
  | intake rid ib body =>
    dsimp only [opStep]
    rcases uploadHandler_table_cases (fun c _ _ _ => c) rid ib env.tableName body w.table
      with h1 | h2
    · rw [h1]
      exact h
    · rw [h2]
      exact storeInv_putItem _ _ _ h (recInv_processing _ _)
  | trigger hm ex tok key =>
    dsimp only [opStep]
    rcases handleRecord_table_cases env hm ex tok key w with h1 | ⟨r, hr, h2⟩
    · rw [h1]
      exact h
    · rw [h2]
      exact storeInv_putItem _ _ _ h hr
  | notify b k =>
    dsimp only [opStep]
    rcases notifyRecord_table_cases env.tableName b k w.table
      with h1 | ⟨pr, jid, hmem, hjid, hax, h2⟩
    · rw [h1]
      exact h
    · rw [h2]
      refine storeInv_updateComplete _ _ _ _ h hax ?_
      intro p hp hpk
      have hpq : p = pr := entry_eq_of_nodup w.table p pr h.1 hp hmem hpk
      have hri := h.2 pr hmem
      by_cases he : pr.2.error = none
      · rw [hpq]
        exact he
      · have hfail : pr.2.status = "failed" := hri.2.1 he
        have hjn : pr.2.job_id = none := hri.1 hfail
        rw [hjid] at hjn
        cases hjn
  | resolve d l rid =>
    dsimp only [opStep]
    rcases statusHandler_table_cases d l env.outputBucket rid w.table
      with h1 | ⟨row, jid, bk, hrow, hjid, hst, hcand, h2⟩
    · rw [h1]
      exact h
    · rw [h2]
      refine storeInv_updateComplete _ _ _ _ h (candOk_not_aux jid bk hcand) ?_
      intro p hp hpk
      have hmem := getItem_mem w.table rid row hrow
      have hpq : p = (rid, row) := entry_eq_of_nodup w.table p (rid, row) h.1 hp hmem hpk
      have hri := h.2 (rid, row) hmem
      by_cases he : row.error = none
      · rw [hpq]
        exact he
      · have hfail : row.status = "failed" := hri.2.1 he
        rcases hst with h3 | h3 <;> rw [h3] at hfail <;> exact absurd hfail (by decide)

theorem storeInv_runOps (env : TriggerEnv) (ops : List Op) (w : World)
    (h : StoreInv w.table) : StoreInv (runOps env ops w).table := by
  induction ops generalizing w with
  | nil => exact h
  | cons op rest ih => exact ih (opStep env w op) (storeInv_opStep env w op h)

theorem storeInv_of_empty (env : TriggerEnv) (ops : List Op) :
    StoreInv (runOps env ops World.empty).table :=
  storeInv_runOps env ops World.empty ⟨List.nodup_nil, fun p hp => absurd hp (List.not_mem_nil p)⟩

theorem any_putItem_self (t : Store) (rid : String) (r : JobRecord) :
    (putItem t rid r).any (fun p => p.1 == rid) = true := by
  unfold putItem
  by_cases hc : t.any (fun p => p.1 == rid) = true
  · rw [if_pos hc]
    rcases List.any_eq_true.mp hc with ⟨p, hp, hpred⟩
    refine List.any_eq_true.mpr ⟨(rid, r), ?_, beq_iff_eq.mpr rfl⟩
    refine List.mem_map.mpr ⟨p, hp, ?_⟩
    rw [if_pos hpred]
  · rw [if_neg hc]
    exact List.any_eq_true.mpr ⟨(rid, r), List.mem_cons_self _ _, beq_iff_eq.mpr rfl⟩

theorem map_fst_putItem_of_any (t : Store) (rid : String) (r : JobRecord)
    (hc : t.any (fun p => p.1 == rid) = true) :
    (putItem t rid r).map Prod.fst = t.map Prod.fst := by
  unfold putItem
  rw [if_pos hc]
  exact map_fst_putRep t rid r

/-! ## Claim C1 -/

/-- C1 counterexample: the claim "no operation ever changes the status of a
record whose status is already complete or failed" is false.  After intake,
orchestration and completion (store shows `complete` for `r1`), redelivering
the same "object created" event makes the orchestrator upsert overwrite the
record back to `in_progress` — a status regression. -/
theorem c1_counterexample :
    ((runOps {} [ .intake "r1" "in" { file := some [0], filename := "a.pdf" },
                  .trigger (some {}) (.succeeded [("LINE", "hi")]) "tok" "uploads/r1/a.pdf",
                  .notify "out" "acct-TranslateText-job-0/a.txt" ] World.empty).table.map
        (fun p => p.2.status) = ["complete"]) ∧
    ((runOps {} [ .intake "r1" "in" { file := some [0], filename := "a.pdf" },
                  .trigger (some {}) (.succeeded [("LINE", "hi")]) "tok" "uploads/r1/a.pdf",
                  .notify "out" "acct-TranslateText-job-0/a.txt",
                  .trigger (some {}) (.succeeded [("LINE", "hi")]) "tok" "uploads/r1/a.pdf" ]
        World.empty).table.map (fun p => p.2.status) = ["in_progress"]) := by
  constructor
  · decide
  · decide

/-- C1 (amended): across any operation sequence from the empty store, at most
one record exists per `request_id` (the key list stays duplicate-free), and
the completion-notifier and status-resolver operations never change the
status of a record that is already `complete` or `failed`; the orchestrator
upsert and the failure write, however, overwrite unconditionally (see the
counterexample). -/
theorem c1_statusMachine (env : TriggerEnv) (ops : List Op) (op : Op)
    (hop : op.isNotifyOrResolve = true) (rid : String) (r : JobRecord)
    (hr : getItem (runOps env ops World.empty).table rid = some r)
    (hterm : r.status = "complete" ∨ r.status = "failed") :
    (((runOps env ops World.empty).table.map Prod.fst).Nodup) ∧
    ∃ r2, getItem (opStep env (runOps env ops World.empty) op).table rid = some r2 ∧
      r2.status = r.status := by
  have hinv := storeInv_of_empty env ops
  refine ⟨hinv.1, ?_⟩
  cases op with
  | intake rid2 ib body => cases hop
  | trigger hm ex tok key => cases hop
  | notify b k =>
    dsimp only [opStep]
    rcases notifyRecord_table_cases env.tableName b k (runOps env ops World.empty).table
      with h1 | ⟨pr, jid, hmem, hjid, hax, h2⟩
    · rw [h1]
      exact ⟨r, hr, rfl⟩
    · rw [h2]
      by_cases heq : pr.1 = rid
      · have hpq : pr = (rid, r) :=
          entry_eq_of_nodup (runOps env ops World.empty).table pr (rid, r) hinv.1 hmem
            (getItem_mem _ rid r hr) heq
        have hjr : r.job_id = some jid := by
          have h3 : pr.2 = r := congrArg Prod.snd hpq
          rw [← h3]
          exact hjid
        rcases hterm with hc | hf
        · refine ⟨setComplete r k b, ?_, ?_⟩
          · rw [heq]
            exact getItem_updateComplete_self _ rid k b r hr
          · rw [hc]
            rfl
        · have hrec := hinv.2 (rid, r) (getItem_mem _ rid r hr)
          have hn : r.job_id = none := hrec.1 hf
          rw [hjr] at hn
          cases hn
      · refine ⟨r, ?_, rfl⟩
        rw [getItem_updateComplete_ne _ rid pr.1 k b (fun hx => heq hx.symm)]
        exact hr
  | resolve d l rid2 =>
    dsimp only [opStep]
    rcases statusHandler_table_cases d l env.outputBucket rid2 (runOps env ops World.empty).table
      with h1 | ⟨row, jid, bk, hrow, hjid, hst, hcand, h2⟩
    · rw [h1]
      exact ⟨r, hr, rfl⟩
    · rw [h2]
      by_cases heq : rid2 = rid
      · rw [heq] at hrow
        rw [hrow] at hr
        injection hr with hrr
        rcases hterm with hc | hf
        · rcases hst with h3 | h3 <;> rw [hrr] at h3 <;> rw [h3] at hc <;>
            exact absurd hc (by decide)
        · rcases hst with h3 | h3 <;> rw [hrr] at h3 <;> rw [h3] at hf <;>
            exact absurd hf (by decide)
      · refine ⟨r, ?_, rfl⟩
        rw [getItem_updateComplete_ne _ rid rid2 bk env.outputBucket (fun hx => heq hx.symm)]
        exact hr

/-- Witness for `c1_statusMachine` at a concrete reachable `complete` record
and a concrete resolver query. -/
theorem c1_statusMachine_witness :
    (((runOps {} [ .intake "r1" "in" { file := some [0], filename := "a.pdf" },
                   .trigger (some {}) (.succeeded [("LINE", "hi")]) "tok" "uploads/r1/a.pdf",
                   .notify "out" "acct-TranslateText-job-0/a.txt" ]
        World.empty).table.map Prod.fst).Nodup) ∧
    ∃ r2, getItem (opStep {} (runOps {} [ .intake "r1" "in" { file := some [0], filename := "a.pdf" },
                   .trigger (some {}) (.succeeded [("LINE", "hi")]) "tok" "uploads/r1/a.pdf",
                   .notify "out" "acct-TranslateText-job-0/a.txt" ]
        World.empty) (Op.resolve (fun _ => none) none "r1")).table "r1" = some r2 ∧
      r2.status = ({ job_id := some "job-0", status := "complete",
                     target_language := some "es", original_filename := some "a.pdf",
                     output_key := some "acct-TranslateText-job-0/a.txt",
                     output_bucket := some "out" } : JobRecord).status :=
  c1_statusMachine {} [ .intake "r1" "in" { file := some [0], filename := "a.pdf" },
                        .trigger (some {}) (.succeeded [("LINE", "hi")]) "tok" "uploads/r1/a.pdf",
                        .notify "out" "acct-TranslateText-job-0/a.txt" ]
    (Op.resolve (fun _ => none) none "r1") rfl "r1"
    ({ job_id := some "job-0", status := "complete",
       target_language := some "es", original_filename := some "a.pdf",
       output_key := some "acct-TranslateText-job-0/a.txt",
       output_bucket := some "out" })
    (by decide) (Or.inl rfl)

/-! ## Claim C2 -/

/-- C2 counterexample: processing the same "object created" event twice does
NOT leave the store in the same final state as processing it once, and it
does start a second external batch job: the second run calls
`start_text_translation_job` again (two jobs started) and relinks the single
record to the fresh job id. -/
theorem c2_counterexample :
    ((handleRecord {} (some {}) (.succeeded []) "tok" "uploads/r1/a.txt"
        (handleRecord {} (some {}) (.succeeded []) "tok" "uploads/r1/a.txt"
          World.empty)).jobsStarted.length = 2) ∧
    (getItem (handleRecord {} (some {}) (.succeeded []) "tok" "uploads/r1/a.txt"
        (handleRecord {} (some {}) (.succeeded []) "tok" "uploads/r1/a.txt"
          World.empty)).table "r1"
      ≠ getItem (handleRecord {} (some {}) (.succeeded []) "tok" "uploads/r1/a.txt"
          World.empty).table "r1") := by
  constructor
  · decide
  · decide

/-- C2 (amended): redelivering the same "object created" event for a
text/HTML key overwrites the same `request_id` entry — the key set of the
store is unchanged by the second run, so no second record appears — but each
delivery starts one more external batch job (one after the first run, two
after the second): redelivery is idempotent on the record key, not on job
starts. -/
theorem c2_redelivery (env : TriggerEnv) (hm : HeadMeta) (ex : ExtractionResult)
    (tok key : String) (w : World)
    (hg : startsWithStr key "uploads/" = true) (hg2 : endsWithStr key "/" = false)
    (hb : BATCH_TYPES.contains (extOfKey key) = true) :
    ((handleRecord env (some hm) ex tok key
        (handleRecord env (some hm) ex tok key w)).table.map Prod.fst
      = (handleRecord env (some hm) ex tok key w).table.map Prod.fst) ∧
    ((handleRecord env (some hm) ex tok key w).jobsStarted.length
      = w.jobsStarted.length + 1) ∧
    ((handleRecord env (some hm) ex tok key
        (handleRecord env (some hm) ex tok key w)).jobsStarted.length
      = w.jobsStarted.length + 2) := by
  have hguard : ¬ (¬ startsWithStr key "uploads/" = true ∨ endsWithStr key "/" = true) := by
    rw [hg, hg2]
    simp
  have hsj : ∀ v : World,
      startJobForKey env ex tok (sourceLangOrAuto hm.sourceLanguage)
        (if hm.targetLanguage.getD "es" ≠ "" then [hm.targetLanguage.getD "es"] else ["es"])
        key v
      = ({ v with
            jobsStarted := v.jobsStarted ++
              [⟨"s3://" ++ env.inputBucket ++ "/" ++ prefixOfKey key,
                "s3://" ++ env.outputBucket ++ "/",
                sourceLangOrAuto hm.sourceLanguage,
                if hm.targetLanguage.getD "es" ≠ "" then [hm.targetLanguage.getD "es"] else ["es"],
                batchContentType (extOfKey key)⟩],
            jobCounter := v.jobCounter + 1 },
         Except.ok ("job-" ++ toString v.jobCounter)) := by
    intro v
    unfold startJobForKey
    rw [if_pos hb]
    rfl
  rcases htn : env.tableName with _ | nm
  · have hone : ∀ v : World, handleRecord env (some hm) ex tok key v
        = { v with
            jobsStarted := v.jobsStarted ++
              [⟨"s3://" ++ env.inputBucket ++ "/" ++ prefixOfKey key,
                "s3://" ++ env.outputBucket ++ "/",
                sourceLangOrAuto hm.sourceLanguage,
                if hm.targetLanguage.getD "es" ≠ "" then [hm.targetLanguage.getD "es"] else ["es"],
                batchContentType (extOfKey key)⟩],
            jobCounter := v.jobCounter + 1 } := by
      intro v
      unfold handleRecord
      rw [if_neg hguard, processUpload_some_eq, hsj v]
      dsimp only
      rw [htn]
    rw [hone, hone w]
    refine ⟨rfl, ?_, ?_⟩
    · simp
    · simp
  · by_cases hrid : ridOfKey key ≠ ""
    · have hone : ∀ v : World, handleRecord env (some hm) ex tok key v
          = { v with
              jobsStarted := v.jobsStarted ++
                [⟨"s3://" ++ env.inputBucket ++ "/" ++ prefixOfKey key,
                  "s3://" ++ env.outputBucket ++ "/",
                  sourceLangOrAuto hm.sourceLanguage,
                  if hm.targetLanguage.getD "es" ≠ "" then [hm.targetLanguage.getD "es"] else ["es"],
                  batchContentType (extOfKey key)⟩],
              jobCounter := v.jobCounter + 1,
              table := putItem v.table (ridOfKey key)
                (orchestratorRecord ("job-" ++ toString v.jobCounter)
                  (hm.targetLanguage.getD "es")
                  (((splitSlash key).getLast?).getD "document")) } := by
        intro v
        unfold handleRecord
        rw [if_neg hguard, processUpload_some_eq, hsj v]
        dsimp only
        rw [htn]
        dsimp only
        rw [if_pos hrid]
      rw [hone, hone w]
      refine ⟨?_, ?_, ?_⟩
      · dsimp only
        exact map_fst_putItem_of_any _ _ _ (any_putItem_self _ _ _)
      · simp
      · simp
    · have hone : ∀ v : World, handleRecord env (some hm) ex tok key v
          = { v with
              jobsStarted := v.jobsStarted ++
                [⟨"s3://" ++ env.inputBucket ++ "/" ++ prefixOfKey key,
                  "s3://" ++ env.outputBucket ++ "/",
                  sourceLangOrAuto hm.sourceLanguage,
                  if hm.targetLanguage.getD "es" ≠ "" then [hm.targetLanguage.getD "es"] else ["es"],
                  batchContentType (extOfKey key)⟩],
              jobCounter := v.jobCounter + 1 } := by
        intro v
        unfold handleRecord
        rw [if_neg hguard, processUpload_some_eq, hsj v]
        dsimp only
        rw [htn]
        dsimp only
        rw [if_neg hrid]
      rw [hone, hone w]
      refine ⟨rfl, ?_, ?_⟩
      · simp
      · simp

/-! ## Claim C3 -/

theorem buildResponse_status (rid : String) (j : Option String) (s : String)
    (row1 : JobRecord) : (buildResponse rid j s row1).status = s := by
  unfold buildResponse
  dsimp only
  split
  · split <;> rfl
  · split <;> rfl

theorem buildResponse_download_pos (rid : String) (j : Option String) (row1 : JobRecord)
    (hk : truthy row1.output_key = true) (hb : truthy row1.output_bucket = true) :
    (buildResponse rid j "complete" row1).download_url
      = some ⟨row1.output_bucket.getD "", row1.output_key.getD "", 3600,
              buildContentDisposition row1⟩ := by
  unfold buildResponse
  dsimp only
  rw [if_pos (show ("complete" : String) = "complete" ∧ truthy row1.output_key = true ∧
      truthy row1.output_bucket = true from ⟨rfl, hk, hb⟩)]

theorem candOk_key_ne (jid bk : String) (hc : candOk jid bk = true) (hj : jid ≠ "") :
    bk ≠ "" := by
  intro hbk
  apply hj
  rw [hbk] at hc
  unfold candOk at hc
  have h1 : containsStr "" jid = true := by
    cases hx : containsStr "" jid
    · rw [hx] at hc
      simp at hc
    · rfl
  have h2 : jid.data.isEmpty = true := h1
  cases jid with
  | mk l =>
    cases l with
    | nil => rfl
    | cons c cs => simp [List.isEmpty] at h2

/-- C3: for a stored record at `in_progress`/`processing` carrying a
`job_id`, if the external Translation Service reports the job `COMPLETED`
and a non-auxiliary output object containing the job id exists in the
listing, one `status` call updates the store to `complete` with
`output_key`/`output_bucket` set and returns `complete` with a presigned
download reference bounded to 3600 seconds (1 hour), all in that call; if
the external job is not `COMPLETED` (or the describe call fails), or the
listing call fails, the stored non-terminal status is returned and the store
is unchanged. -/
theorem c3_resolver_reconciliation (d : String → Option String)
    (listing : List (String × Nat)) (ob rid jid : String) (t : Store) (row : JobRecord)
    (hrow : getItem t rid = some row)
    (hst : row.status = "in_progress" ∨ row.status = "processing")
    (hjid : row.job_id = some jid)
    (hok : row.output_key = none) (hob : row.output_bucket = none)
    (hjne : jid ≠ "") (hobne : ob ≠ "") :
    (d jid = some "COMPLETED" → (∃ kv ∈ listing, candOk jid kv.1 = true) →
      ∃ bk, selectBest jid listing = some bk ∧
        (statusHandler d (some listing) ob rid t).1.status = "complete" ∧
        (statusHandler d (some listing) ob rid t).1.download_url
          = some ⟨ob, bk, 3600, buildContentDisposition (setComplete row bk ob)⟩ ∧
        getItem (statusHandler d (some listing) ob rid t).2 rid
          = some (setComplete row bk ob)) ∧
    (d jid ≠ some "COMPLETED" →
      (statusHandler d (some listing) ob rid t).1.status = row.status ∧
      (statusHandler d (some listing) ob rid t).2 = t) ∧
    ((statusHandler d none ob rid t).1.status = row.status ∧
     (statusHandler d none ob rid t).2 = t) := by
  refine ⟨?_, ?_, ?_⟩
  · intro hdone hex
    have hs := selectBest_isSome jid listing hex
    rcases Option.isSome_iff_exists.mp hs with ⟨bk, hbk⟩
    have hcand := selectBest_candOk jid listing bk hbk
    have hbkne : bk ≠ "" := candOk_key_ne jid bk hcand hjne
    refine ⟨bk, hbk, ?_⟩
    unfold statusHandler
    rw [hrow]
    dsimp only
    rw [hjid]
    dsimp only
    rw [if_pos hst]
    unfold checkTranslateComplete
    rw [hdone]
    dsimp only
    rw [if_neg (show ¬ (("COMPLETED" : String) ≠ "COMPLETED") from fun hx => hx rfl)]
    try dsimp only
    rw [hbk]
    try dsimp only
    rw [hok, hob]
    simp only [Option.getD_none]
    refine ⟨buildResponse_status _ _ _ _, ?_,
      getItem_updateComplete_self t rid bk ob row hrow⟩
    rw [buildResponse_download_pos rid (some jid)
      ({ job_id := some jid, status := row.status, target_language := row.target_language,
         original_filename := row.original_filename, output_key := some bk,
         output_bucket := some ob, error := row.error })
      (decide_eq_true hbkne) (decide_eq_true hobne)]
    rfl
  · intro hnd
    unfold statusHandler
    rw [hrow]
    dsimp only
    rw [hjid]
    dsimp only
    rw [if_pos hst]
    unfold checkTranslateComplete
    rcases hd : d jid with _ | js
    · dsimp only
      refine ⟨buildResponse_status _ _ _ _, rfl⟩
    · dsimp only
      have hjs : js ≠ "COMPLETED" := by
        intro hx
        exact hnd (by rw [hd, hx])
      rw [if_pos hjs]
      dsimp only
      refine ⟨buildResponse_status _ _ _ _, rfl⟩
  · unfold statusHandler
    rw [hrow]
    dsimp only
    rw [hjid]
    dsimp only
    rw [if_pos hst]
    unfold checkTranslateComplete
    rcases hd : d jid with _ | js
    · dsimp only
      refine ⟨buildResponse_status _ _ _ _, rfl⟩
    · dsimp only
      by_cases hjs : js ≠ "COMPLETED"
      · rw [if_pos hjs]
        dsimp only
        refine ⟨buildResponse_status _ _ _ _, rfl⟩
      · rw [if_neg hjs]
        dsimp only
        refine ⟨buildResponse_status _ _ _ _, rfl⟩

/-- Witness for `c3_resolver_reconciliation` at a concrete stuck record. -/
theorem c3_resolver_reconciliation_witness :
    ((fun j => if j = "J7" then some "COMPLETED" else none) "J7" = some "COMPLETED" →
      (∃ kv ∈ [(("acct-TranslateText-J7/a.txt" : String), (5 : Nat))],
        candOk "J7" kv.1 = true) →
      ∃ bk, selectBest "J7" [("acct-TranslateText-J7/a.txt", 5)] = some bk ∧
        (statusHandler (fun j => if j = "J7" then some "COMPLETED" else none)
          (some [("acct-TranslateText-J7/a.txt", 5)]) "out" "r1"
          [("r1", { job_id := some "J7", status := "in_progress",
                    target_language := some "fr",
                    original_filename := some "a.txt" })]).1.status = "complete" ∧
        (statusHandler (fun j => if j = "J7" then some "COMPLETED" else none)
          (some [("acct-TranslateText-J7/a.txt", 5)]) "out" "r1"
          [("r1", { job_id := some "J7", status := "in_progress",
                    target_language := some "fr",
                    original_filename := some "a.txt" })]).1.download_url
          = some ⟨"out", bk, 3600, buildContentDisposition (setComplete
              ({ job_id := some "J7", status := "in_progress",
                 target_language := some "fr",
                 original_filename := some "a.txt" }) bk "out")⟩ ∧
        getItem (statusHandler (fun j => if j = "J7" then some "COMPLETED" else none)
          (some [("acct-TranslateText-J7/a.txt", 5)]) "out" "r1"
          [("r1", { job_id := some "J7", status := "in_progress",
                    target_language := some "fr",
                    original_filename := some "a.txt" })]).2 "r1"
          = some (setComplete ({ job_id := some "J7", status := "in_progress",
                                 target_language := some "fr",
                                 original_filename := some "a.txt" }) bk "out")) ∧
    ((fun j => if j = "J7" then some "COMPLETED" else none) "J7" ≠ some "COMPLETED" →
      (statusHandler (fun j => if j = "J7" then some "COMPLETED" else none)
        (some [("acct-TranslateText-J7/a.txt", 5)]) "out" "r1"
        [("r1", { job_id := some "J7", status := "in_progress",
                  target_language := some "fr",
                  original_filename := some "a.txt" })]).1.status
        = ({ job_id := some "J7", status := "in_progress",
             target_language := some "fr",
             original_filename := some "a.txt" } : JobRecord).status ∧
      (statusHandler (fun j => if j = "J7" then some "COMPLETED" else none)
        (some [("acct-TranslateText-J7/a.txt", 5)]) "out" "r1"
        [("r1", { job_id := some "J7", status := "in_progress",
                  target_language := some "fr",
                  original_filename := some "a.txt" })]).2
        = [("r1", { job_id := some "J7", status := "in_progress",
                    target_language := some "fr",
                    original_filename := some "a.txt" })]) ∧
    ((statusHandler (fun j => if j = "J7" then some "COMPLETED" else none)
        none "out" "r1"
        [("r1", { job_id := some "J7", status := "in_progress",
                  target_language := some "fr",
                  original_filename := some "a.txt" })]).1.status
        = ({ job_id := some "J7", status := "in_progress",
             target_language := some "fr",
             original_filename := some "a.txt" } : JobRecord).status ∧
     (statusHandler (fun j => if j = "J7" then some "COMPLETED" else none)
        none "out" "r1"
        [("r1", { job_id := some "J7", status := "in_progress",
                  target_language := some "fr",
                  original_filename := some "a.txt" })]).2
        = [("r1", { job_id := some "J7", status := "in_progress",
                    target_language := some "fr",
                    original_filename := some "a.txt" })]) :=
  c3_resolver_reconciliation (fun j => if j = "J7" then some "COMPLETED" else none)
    [("acct-TranslateText-J7/a.txt", 5)] "out" "r1" "J7"
    [("r1", { job_id := some "J7", status := "in_progress",
              target_language := some "fr", original_filename := some "a.txt" })]
    ({ job_id := some "J7", status := "in_progress",
       target_language := some "fr", original_filename := some "a.txt" })
    (by decide) (Or.inl rfl) rfl rfl rfl (by decide) (by decide)

/-! ## Claim C4 -/

theorem getItem_putList (t : Store) (rid : String) (r : JobRecord)
    (hc : t.any (fun p => p.1 == rid) = true) :
    getItem (t.map (fun p => if p.1 == rid then (rid, r) else p)) rid = some r := by
  induction t with
  | nil => simp at hc
  | cons hd tl ih =>
    by_cases hb : (hd.1 == rid) = true
    · have hdef : (if (hd.1 == rid) = true then (rid, r) else hd) = (rid, r) := if_pos hb
      unfold getItem
      simp only [List.map_cons, hdef]
      rw [find?_cons_pos (fun p => p.1 == rid) (rid, r) _ (beq_iff_eq.mpr rfl)]
      rfl
    · have hdef : (if (hd.1 == rid) = true then (rid, r) else hd) = hd := if_neg hb
      have hc2 : tl.any (fun p => p.1 == rid) = true := by
        rcases List.any_eq_true.mp hc with ⟨p, hp, hpred⟩
        rcases List.mem_cons.mp hp with rfl | hp2
        · exact absurd hpred hb
        · exact List.any_eq_true.mpr ⟨p, hp2, hpred⟩
      unfold getItem
      simp only [List.map_cons, hdef]
      rw [find?_cons_neg (fun p => p.1 == rid) hd _ hb]
      exact ih hc2

theorem getItem_putItem_self (t : Store) (rid : String) (r : JobRecord) :
    getItem (putItem t rid r) rid = some r := by
  unfold putItem
  by_cases hc : t.any (fun p => p.1 == rid) = true
  · rw [if_pos hc]
    exact getItem_putList t rid r hc
  · rw [if_neg hc]
    unfold getItem
    rw [find?_cons_pos (fun p => p.1 == rid) (rid, r) t (beq_iff_eq.mpr rfl)]
    rfl

theorem data_append_str (a b : String) : (a ++ b).data = a.data ++ b.data := by
  cases a
  cases b
  rfl

theorem isStrippedEmpty_append (a b : String)
    (ha : isStrippedEmpty a = true) (hb : isStrippedEmpty b = true) :
    isStrippedEmpty (a ++ b) = true := by
  unfold isStrippedEmpty at *
  rw [data_append_str, List.all_append, ha, hb]
  rfl

theorem isStrippedEmpty_join (l : List String)
    (h : ∀ s ∈ l, isStrippedEmpty s = true) : isStrippedEmpty (joinLines l) = true := by
  induction l with
  | nil => rfl
  | cons s rest ih =>
    cases rest with
    | nil => exact h s (List.mem_cons_self s [])
    | cons s2 rest2 =>
      show isStrippedEmpty (s ++ "\n" ++ joinLines (s2 :: rest2)) = true
      refine isStrippedEmpty_append _ _ ?_ ?_
      · refine isStrippedEmpty_append _ _ ?_ (by decide)
        exact h s (List.mem_cons_self s _)
      · refine ih ?_
        intro s3 hs3
        exact h s3 (List.mem_cons_of_mem s hs3)

/-- C4: on a PDF upload event whose Textract extraction yields only
whitespace line blocks (or no line blocks), the orchestrator records a
`failed` JobRecord carrying the exact "no extractable text" error: the
message is under the 500-character truncation bound (so stored whole), is
distinct from the Textract timeout error, and the status written is
`failed`, never `complete`. -/
theorem c4_pdf_no_text (env : TriggerEnv) (hm : HeadMeta) (tok key : String)
    (w : World) (blocks : List (String × String)) (nm : String)
    (htn : env.tableName = some nm)
    (hg : startsWithStr key "uploads/" = true)
    (hg2 : endsWithStr key "/" = false)
    (hpdf : extOfKey key = ".pdf")
    (hrid : ridOfKey key ≠ "")
    (hws : ∀ b ∈ blocks, b.1 = "LINE" → isStrippedEmpty b.2 = true) :
    getItem (handleRecord env (some hm) (.succeeded blocks) tok key w).table (ridOfKey key)
      = some (failureRecord "No text could be extracted from this PDF. It may be image-only, scanned, or use an unsupported format.") ∧
    (failureRecord "No text could be extracted from this PDF. It may be image-only, scanned, or use an unsupported format.").status = "failed" ∧
    (failureRecord "No text could be extracted from this PDF. It may be image-only, scanned, or use an unsupported format.").error
      = some "No text could be extracted from this PDF. It may be image-only, scanned, or use an unsupported format." ∧
    strLen "No text could be extracted from this PDF. It may be image-only, scanned, or use an unsupported format." ≤ 500 ∧
    ("No text could be extracted from this PDF. It may be image-only, scanned, or use an unsupported format." : String)
      ≠ "Textract job timed out" ∧
    (failureRecord "No text could be extracted from this PDF. It may be image-only, scanned, or use an unsupported format.").status
      ≠ "complete" := by
  have hguard : ¬ (¬ startsWithStr key "uploads/" = true ∨ endsWithStr key "/" = true) := by
    rw [hg, hg2]
    simp
  have hnb : ¬ BATCH_TYPES.contains (extOfKey key) = true := by
    rw [hpdf]
    decide
  have hstrip : isStrippedEmpty
      (if ((blocks.filter (fun b => b.1 = "LINE")).map (fun b => b.2)).isEmpty then ""
       else joinLines ((blocks.filter (fun b => b.1 = "LINE")).map (fun b => b.2)))
      = true := by
    by_cases he : ((blocks.filter (fun b => b.1 = "LINE")).map (fun b => b.2)).isEmpty = true
    · rw [if_pos he]
      rfl
    · rw [if_neg he]
      refine isStrippedEmpty_join _ ?_
      intro s hs
      rcases List.mem_map.mp hs with ⟨b, hbmem, rfl⟩
      have hbf := List.mem_filter.mp hbmem
      exact hws b hbf.1 (by simpa using hbf.2)
  have hpp : ∀ sl : String, ∀ tc : List String,
      processPdf env (.succeeded blocks) tok sl tc w
        = (w, Except.error "No text could be extracted from this PDF. It may be image-only, scanned, or use an unsupported format.") := by
    intro sl tc
    unfold processPdf
    dsimp only
    rw [if_pos hstrip]
  have hsj : ∀ sl : String, ∀ tc : List String,
      startJobForKey env (.succeeded blocks) tok sl tc key w
        = (w, Except.error "No text could be extracted from this PDF. It may be image-only, scanned, or use an unsupported format.") := by
    intro sl tc
    unfold startJobForKey
    rw [if_neg hnb, if_pos hpdf]
    exact hpp sl tc
  have hrun : (handleRecord env (some hm) (.succeeded blocks) tok key w).table
      = recordFailure env.tableName key
          "No text could be extracted from this PDF. It may be image-only, scanned, or use an unsupported format."
          w.table := by
    unfold handleRecord
    rw [if_neg hguard, processUpload_some_eq,
      hsj (sourceLangOrAuto hm.sourceLanguage)
        (if hm.targetLanguage.getD "es" ≠ "" then [hm.targetLanguage.getD "es"] else ["es"])]
  refine ⟨?_, rfl, by decide, by decide, by decide, by decide⟩
  rw [hrun]
  unfold recordFailure
  rw [htn]
  dsimp only
  rw [if_pos hrid]
  exact getItem_putItem_self _ _ _

/-- Witness for `c4_pdf_no_text` on a concrete whitespace-only extraction. -/
theorem c4_pdf_no_text_witness :
    getItem (handleRecord {} (some {}) (.succeeded [("LINE", "  ")]) "tok"
        "uploads/r1/scan.pdf" World.empty).table (ridOfKey "uploads/r1/scan.pdf")
      = some (failureRecord "No text could be extracted from this PDF. It may be image-only, scanned, or use an unsupported format.") ∧
    (failureRecord "No text could be extracted from this PDF. It may be image-only, scanned, or use an unsupported format.").status = "failed" ∧
    (failureRecord "No text could be extracted from this PDF. It may be image-only, scanned, or use an unsupported format.").error
      = some "No text could be extracted from this PDF. It may be image-only, scanned, or use an unsupported format." ∧
    strLen "No text could be extracted from this PDF. It may be image-only, scanned, or use an unsupported format." ≤ 500 ∧
    ("No text could be extracted from this PDF. It may be image-only, scanned, or use an unsupported format." : String)
      ≠ "Textract job timed out" ∧
    (failureRecord "No text could be extracted from this PDF. It may be image-only, scanned, or use an unsupported format.").status
      ≠ "complete" :=
  c4_pdf_no_text {} {} "tok" "uploads/r1/scan.pdf" World.empty [("LINE", "  ")] "jobs"
    rfl (by decide) (by decide) (by decide) (by decide) (by decide)

/-- Witness for `c2_redelivery` at a concrete text event. -/
theorem c2_redelivery_witness :
    ((handleRecord {} (some {}) (.succeeded []) "tok" "uploads/r1/a.txt"
        (handleRecord {} (some {}) (.succeeded []) "tok" "uploads/r1/a.txt"
          World.empty)).table.map Prod.fst
      = (handleRecord {} (some {}) (.succeeded []) "tok" "uploads/r1/a.txt"
          World.empty).table.map Prod.fst) ∧
    ((handleRecord {} (some {}) (.succeeded []) "tok" "uploads/r1/a.txt"
        World.empty).jobsStarted.length = World.empty.jobsStarted.length + 1) ∧
    ((handleRecord {} (some {}) (.succeeded []) "tok" "uploads/r1/a.txt"
        (handleRecord {} (some {}) (.succeeded []) "tok" "uploads/r1/a.txt"
          World.empty)).jobsStarted.length = World.empty.jobsStarted.length + 2) :=
  c2_redelivery {} {} (.succeeded []) "tok" "uploads/r1/a.txt" World.empty
    (by decide) (by decide) (by decide)

/-! ## Upload-handler path lemmas (shared by C5, C6, C9, C10) -/

theorem uploadHandler_sync (ts : List Nat → String → String → String → List Nat)
    (rid ib : String) (tn : Option String) (content : List Nat) (fn : String)
    (tl sl : Option String) (t : Store)
    (hlen : content.length ≤ SYNC_MAX_BYTES)
    (hct : contentTypeOfExt (toLowerStr (splitextExt fn)) = "text/html" ∨
           contentTypeOfExt (toLowerStr (splitextExt fn)) = "text/plain") :
    uploadHandler ts rid ib tn
        { file := some content, filename := fn, target_language := tl, source_language := sl } t
      = ⟨.syncTranslated (ts content (contentTypeOfExt (toLowerStr (splitextExt fn)))
            (sourceLangOrAuto sl) (tl.getD "es")) fn, [], t⟩ := by
  unfold uploadHandler
  dsimp only
  rw [if_pos ⟨hlen, hct⟩]

theorem uploadHandler_async (ts : List Nat → String → String → String → List Nat)
    (rid ib : String) (tn : Option String) (content : List Nat) (fn : String)
    (tl sl : Option String) (t : Store)
    (hns : ¬ (content.length ≤ SYNC_MAX_BYTES ∧
        (contentTypeOfExt (toLowerStr (splitextExt fn)) = "text/html" ∨
         contentTypeOfExt (toLowerStr (splitextExt fn)) = "text/plain")))
    (hsize : ¬ content.length > 5 * 1024 * 1024) :
    uploadHandler ts rid ib tn
        { file := some content, filename := fn, target_language := tl, source_language := sl } t
      = ⟨.asyncStarted rid ("uploads/" ++ rid ++ "/" ++ fn),
         [⟨ib, "uploads/" ++ rid ++ "/" ++ fn, content,
           contentTypeOfExt (toLowerStr (splitextExt fn)), tl.getD "es", sourceLangOrAuto sl⟩],
         match tn with
         | some _ => putItem t rid (intakeRecord (tl.getD "es") fn)
         | none => t⟩ := by
  unfold uploadHandler
  dsimp only
  rw [if_neg hns, if_neg hsize]

/-! ## Claim C5 -/

/-- C5 counterexample: a `text/plain` payload of exactly the sync-size
threshold (102400 bytes) takes the SYNC path — inline translated bytes, no
stored object, no JobRecord — contradicting the claim that the exact
threshold takes the async path (the code's guard is `<=`). -/
theorem c5_counterexample :
    (uploadHandler (fun c _ _ _ => c) "r1" "in" (some "T")
        { file := some (List.replicate SYNC_MAX_BYTES 0), filename := "a.txt" } [])
      = ⟨.syncTranslated (List.replicate SYNC_MAX_BYTES 0) "a.txt", [], []⟩ := by
  exact uploadHandler_sync (fun c _ _ _ => c) "r1" "in" (some "T")
    (List.replicate SYNC_MAX_BYTES 0) "a.txt" none none []
    (by simp) (Or.inr (by decide))

/-- C5 (amended): at the intake size boundary with a qualifying content type,
payloads of size at most the threshold (including exactly 102400 bytes) take
the sync path — inline translated bytes, nothing stored, no record — while a
payload one byte over the threshold takes the async path: object stored and
a `processing` JobRecord written. -/
theorem c5_boundary (ts : List Nat → String → String → String → List Nat)
    (rid ib nm : String) (content : List Nat) (fn : String) (t : Store)
    (hct : contentTypeOfExt (toLowerStr (splitextExt fn)) = "text/html" ∨
           contentTypeOfExt (toLowerStr (splitextExt fn)) = "text/plain") :
    (content.length ≤ SYNC_MAX_BYTES →
      uploadHandler ts rid ib (some nm)
          { file := some content, filename := fn } t
        = ⟨.syncTranslated (ts content (contentTypeOfExt (toLowerStr (splitextExt fn)))
              "auto" "es") fn, [], t⟩) ∧
    (content.length = SYNC_MAX_BYTES + 1 →
      uploadHandler ts rid ib (some nm)
          { file := some content, filename := fn } t
        = ⟨.asyncStarted rid ("uploads/" ++ rid ++ "/" ++ fn),
           [⟨ib, "uploads/" ++ rid ++ "/" ++ fn, content,
             contentTypeOfExt (toLowerStr (splitextExt fn)), "es", "auto"⟩],
           putItem t rid (intakeRecord "es" fn)⟩) := by
  constructor
  · intro hlen
    exact uploadHandler_sync ts rid ib (some nm) content fn none none t hlen hct
  · intro hlen
    have hns : ¬ (content.length ≤ SYNC_MAX_BYTES ∧
        (contentTypeOfExt (toLowerStr (splitextExt fn)) = "text/html" ∨
         contentTypeOfExt (toLowerStr (splitextExt fn)) = "text/plain")) := by
      intro hx
      rw [hlen] at hx
      exact absurd hx.1 (by decide)
    have hsize : ¬ content.length > 5 * 1024 * 1024 := by
      rw [hlen]
      decide
    exact uploadHandler_async ts rid ib (some nm) content fn none none t hns hsize

/-- Witness for `c5_boundary` one byte over the threshold. -/
theorem c5_boundary_witness :
    ((List.replicate (SYNC_MAX_BYTES + 1) 0).length ≤ SYNC_MAX_BYTES →
      uploadHandler (fun c _ _ _ => c) "r1" "in" (some "T")
          { file := some (List.replicate (SYNC_MAX_BYTES + 1) 0), filename := "a.txt" } []
        = ⟨.syncTranslated ((fun (c : List Nat) (_ _ _ : String) => c)
              (List.replicate (SYNC_MAX_BYTES + 1) 0)
              (contentTypeOfExt (toLowerStr (splitextExt "a.txt"))) "auto" "es") "a.txt",
           [], []⟩) ∧
    ((List.replicate (SYNC_MAX_BYTES + 1) 0).length = SYNC_MAX_BYTES + 1 →
      uploadHandler (fun c _ _ _ => c) "r1" "in" (some "T")
          { file := some (List.replicate (SYNC_MAX_BYTES + 1) 0), filename := "a.txt" } []
        = ⟨.asyncStarted "r1" ("uploads/" ++ "r1" ++ "/" ++ "a.txt"),
           [⟨"in", "uploads/" ++ "r1" ++ "/" ++ "a.txt", List.replicate (SYNC_MAX_BYTES + 1) 0,
             contentTypeOfExt (toLowerStr (splitextExt "a.txt")), "es", "auto"⟩],
           putItem [] "r1" (intakeRecord "es" "a.txt")⟩) :=
  c5_boundary (fun c _ _ _ => c) "r1" "in" "T"
    (List.replicate (SYNC_MAX_BYTES + 1) 0) "a.txt" [] (Or.inr (by decide))

/-! ## Claim C6 -/

theorem subIn_append_right (n a b : List Char) (h : subIn n b = true) :
    subIn n (a ++ b) = true := by
  induction a with
  | nil => exact h
  | cons c t ih =>
    show (n.isPrefixOf (c :: (t ++ b)) || subIn n (t ++ b)) = true
    rw [ih]
    exact Bool.or_true _

theorem containsStr_append_right (a b n : String) (h : containsStr b n = true) :
    containsStr (a ++ b) n = true := by
  unfold containsStr at h ⊢
  rw [data_append_str]
  exact subIn_append_right n.data a.data b.data h

/-- C6 counterexample: Upload Intake does NOT reject an unsupported
extension synchronously — a `.docx` upload is accepted onto the async path:
the object is stored and a `processing` JobRecord is written, with a 200-
style `asyncStarted` response instead of a client error. -/
theorem c6_counterexample :
    (uploadHandler (fun c _ _ _ => c) "r1" "in" (some "T")
        { file := some [0], filename := "doc.docx" } [])
      = ⟨.asyncStarted "r1" "uploads/r1/doc.docx",
         [⟨"in", "uploads/r1/doc.docx", [0], "application/octet-stream", "es", "auto"⟩],
         [("r1", intakeRecord "es" "doc.docx")]⟩ := by decide

/-- C6 (amended): intake accepts an unsupported-extension upload (content
type falls back to `application/octet-stream`): the object is stored and a
`processing` JobRecord is written.  The unsupported-format rejection happens
asynchronously in the orchestrator: on the resulting event it raises the
`Unsupported format` error — whose text names the supported formats — and
records a `failed` JobRecord carrying it. -/
theorem c6_unsupported_async_rejection
    (ts : List Nat → String → String → String → List Nat)
    (rid ib nm : String) (content : List Nat) (fn : String) (t : Store)
    (env : TriggerEnv) (hm : HeadMeta) (ex : ExtractionResult) (tok key : String)
    (w : World) (nm2 : String)
    (hct : contentTypeOfExt (toLowerStr (splitextExt fn)) = "application/octet-stream")
    (hsize : ¬ content.length > 5 * 1024 * 1024)
    (htn : env.tableName = some nm2)
    (hg : startsWithStr key "uploads/" = true) (hg2 : endsWithStr key "/" = false)
    (hun1 : ¬ BATCH_TYPES.contains (extOfKey key) = true)
    (hun2 : ¬ extOfKey key = ".pdf")
    (hrid : ridOfKey key ≠ "") :
    (uploadHandler ts rid ib (some nm) { file := some content, filename := fn } t
       = ⟨.asyncStarted rid ("uploads/" ++ rid ++ "/" ++ fn),
          [⟨ib, "uploads/" ++ rid ++ "/" ++ fn, content, "application/octet-stream",
            "es", "auto"⟩],
          putItem t rid (intakeRecord "es" fn)⟩) ∧
    ((handleRecord env (some hm) ex tok key w).table
       = putItem w.table (ridOfKey key)
           (failureRecord ("Unsupported format: " ++ extOfKey key ++ ". Use HTML, TXT, or PDF."))) ∧
    containsStr ("Unsupported format: " ++ extOfKey key ++ ". Use HTML, TXT, or PDF.")
      "Use HTML, TXT, or PDF." = true := by
  refine ⟨?_, ?_, ?_⟩
  · have hns : ¬ (content.length ≤ SYNC_MAX_BYTES ∧
        (contentTypeOfExt (toLowerStr (splitextExt fn)) = "text/html" ∨
         contentTypeOfExt (toLowerStr (splitextExt fn)) = "text/plain")) := by
      intro hx
      rcases hx.2 with h2 | h2 <;> rw [hct] at h2 <;> exact absurd h2 (by decide)
    have h := uploadHandler_async ts rid ib (some nm) content fn none none t hns hsize
    rw [h, hct]
    rfl
  · have hguard : ¬ (¬ startsWithStr key "uploads/" = true ∨ endsWithStr key "/" = true) := by
      rw [hg, hg2]
      simp
    have hsj : ∀ sl : String, ∀ tc : List String,
        startJobForKey env ex tok sl tc key w
          = (w, Except.error ("Unsupported format: " ++ extOfKey key ++ ". Use HTML, TXT, or PDF.")) := by
      intro sl tc
      unfold startJobForKey
      rw [if_neg hun1, if_neg hun2]
    have hrun : (handleRecord env (some hm) ex tok key w).table
        = recordFailure env.tableName key
            ("Unsupported format: " ++ extOfKey key ++ ". Use HTML, TXT, or PDF.") w.table := by
      unfold handleRecord
      rw [if_neg hguard, processUpload_some_eq,
        hsj (sourceLangOrAuto hm.sourceLanguage)
          (if hm.targetLanguage.getD "es" ≠ "" then [hm.targetLanguage.getD "es"] else ["es"])]
    rw [hrun]
    unfold recordFailure
    rw [htn]
    dsimp only
    rw [if_pos hrid]
  · exact containsStr_append_right ("Unsupported format: " ++ extOfKey key)
      ". Use HTML, TXT, or PDF." "Use HTML, TXT, or PDF." (by decide)

/-- Witness for `c6_unsupported_async_rejection` on a `.docx` upload. -/
theorem c6_unsupported_async_rejection_witness :
    (uploadHandler (fun c _ _ _ => c) "r1" "in" (some "T")
        { file := some [0], filename := "doc.docx" } []
       = ⟨.asyncStarted "r1" ("uploads/" ++ "r1" ++ "/" ++ "doc.docx"),
          [⟨"in", "uploads/" ++ "r1" ++ "/" ++ "doc.docx", [0], "application/octet-stream",
            "es", "auto"⟩],
          putItem [] "r1" (intakeRecord "es" "doc.docx")⟩) ∧
    ((handleRecord {} (some {}) (.succeeded []) "tok" "uploads/r1/doc.docx" World.empty).table
       = putItem World.empty.table (ridOfKey "uploads/r1/doc.docx")
           (failureRecord ("Unsupported format: " ++ extOfKey "uploads/r1/doc.docx"
             ++ ". Use HTML, TXT, or PDF."))) ∧
    containsStr ("Unsupported format: " ++ extOfKey "uploads/r1/doc.docx"
        ++ ". Use HTML, TXT, or PDF.")
      "Use HTML, TXT, or PDF." = true :=
  c6_unsupported_async_rejection (fun c _ _ _ => c) "r1" "in" "T" [0] "doc.docx" []
    {} {} (.succeeded []) "tok" "uploads/r1/doc.docx" World.empty "jobs"
    (by decide) (by decide) rfl (by decide) (by decide) (by decide) (by decide) (by decide)

/-! ## Claim C9 -/

/-- C9: an HTML or plain-text document strictly under the sync threshold is
translated inline — the response carries the synchronously translated bytes —
and the intake stores no object and writes no JobRecord. -/
theorem c9_sync_fast_path (ts : List Nat → String → String → String → List Nat)
    (rid ib : String) (tn : Option String) (content : List Nat) (fn : String)
    (tl sl : Option String) (t : Store)
    (hlen : content.length < SYNC_MAX_BYTES)
    (hct : contentTypeOfExt (toLowerStr (splitextExt fn)) = "text/html" ∨
           contentTypeOfExt (toLowerStr (splitextExt fn)) = "text/plain") :
    uploadHandler ts rid ib tn
        { file := some content, filename := fn, target_language := tl, source_language := sl } t
      = ⟨.syncTranslated (ts content (contentTypeOfExt (toLowerStr (splitextExt fn)))
            (sourceLangOrAuto sl) (tl.getD "es")) fn, [], t⟩ :=
  uploadHandler_sync ts rid ib tn content fn tl sl t (Nat.le_of_lt hlen) hct

/-- Witness for `c9_sync_fast_path` on a small HTML document. -/
theorem c9_sync_fast_path_witness :
    uploadHandler (fun c _ _ _ => c) "r1" "in" (some "T")
        { file := some [60, 112, 62], filename := "page.html",
          target_language := some "de", source_language := none } []
      = ⟨.syncTranslated ((fun (c : List Nat) (_ _ _ : String) => c) [60, 112, 62]
            (contentTypeOfExt (toLowerStr (splitextExt "page.html"))) "auto" "de")
          "page.html", [], []⟩ :=
  c9_sync_fast_path (fun c _ _ _ => c) "r1" "in" (some "T") [60, 112, 62] "page.html"
    (some "de") none [] (by decide) (Or.inl (by decide))

/-! ## Claim C7 -/

/-- C7 counterexample: `_record_failure` uses `put_item`, which replaces the
whole item — after recording a failure against an intake record whose
`target_language` was `"fr"` and `original_filename` `"a.pdf"`, those fields
are gone, contradicting the claim that all other fields are left unchanged. -/
theorem c7_counterexample :
    recordFailure (some "T") "uploads/r1/a.pdf" "boom"
        [("r1", { status := "processing", target_language := some "fr",
                  original_filename := some "a.pdf" })]
      = [("r1", { status := "failed", error := some "boom" })] ∧
    ((getItem (recordFailure (some "T") "uploads/r1/a.pdf" "boom"
        [("r1", { status := "processing", target_language := some "fr",
                  original_filename := some "a.pdf" })]) "r1").map
      (fun r => r.target_language)) = some none := by
  constructor
  · decide
  · decide

/-- C7 (amended): the failure write replaces the entire record: the stored
item carries exactly `status = "failed"` and the 500-character-truncated
`error`, with `target_language` and `original_filename` (and every other
field) cleared rather than preserved.  The true part of the claim stands:
across any operation sequence, an `error` is carried only by `failed`
records. -/
theorem c7_failure_write (env : TriggerEnv) (ops : List Op)
    (nm key e : String) (t : Store) (hrid : ridOfKey key ≠ "") :
    (getItem (recordFailure (some nm) key e t) (ridOfKey key) = some (failureRecord e) ∧
     (failureRecord e).target_language = none ∧
     (failureRecord e).original_filename = none ∧
     (failureRecord e).job_id = none ∧
     (failureRecord e).status = "failed" ∧
     (failureRecord e).error = some (strTake e 500)) ∧
    (∀ p ∈ (runOps env ops World.empty).table, p.2.error ≠ none → p.2.status = "failed") := by
  constructor
  · refine ⟨?_, rfl, rfl, rfl, rfl, rfl⟩
    unfold recordFailure
    dsimp only
    rw [if_pos hrid]
    exact getItem_putItem_self _ _ _
  · intro p hp
    exact ((storeInv_of_empty env ops).2 p hp).2.1

/-- Witness for `c7_failure_write` at a concrete key and store. -/
theorem c7_failure_write_witness :
    (getItem (recordFailure (some "T") "uploads/r1/a.pdf" "boom"
        [("r1", { status := "processing", target_language := some "fr",
                  original_filename := some "a.pdf" })]) (ridOfKey "uploads/r1/a.pdf")
       = some (failureRecord "boom") ∧
     (failureRecord "boom").target_language = none ∧
     (failureRecord "boom").original_filename = none ∧
     (failureRecord "boom").job_id = none ∧
     (failureRecord "boom").status = "failed" ∧
     (failureRecord "boom").error = some (strTake "boom" 500)) ∧
    (∀ p ∈ (runOps {} [] World.empty).table, p.2.error ≠ none → p.2.status = "failed") :=
  c7_failure_write {} [] "T" "uploads/r1/a.pdf" "boom"
    [("r1", { status := "processing", target_language := some "fr",
              original_filename := some "a.pdf" })] (by decide)

/-! ## Claim C8 -/

theorem buildResponse_download (rid : String) (j : Option String) (s : String)
    (row1 : JobRecord) (ref : DownloadRef)
    (h : (buildResponse rid j s row1).download_url = some ref) :
    ∃ k2, row1.output_key = some k2 ∧ ref.key = k2 := by
  unfold buildResponse at h
  dsimp only at h
  by_cases hc : s = "complete" ∧ truthy row1.output_key = true ∧ truthy row1.output_bucket = true
  · rw [if_pos hc] at h
    rcases hko : row1.output_key with _ | k2
    · rw [hko] at hc
      exact absurd hc.2.1 (by decide)
    · refine ⟨k2, rfl, ?_⟩
      injection h with h2
      rw [← h2]
      dsimp only
      rw [hko]
      rfl
  · rw [if_neg hc] at h
    by_cases hc2 : s = "failed" ∧ truthy row1.error = true
    · rw [if_pos hc2] at h
      cases h
    · rw [if_neg hc2] at h
      cases h

theorem statusHandler_resp_cases (d : String → Option String)
    (l : Option (List (String × Nat))) (ob rid : String) (t : Store) :
    (statusHandler d l ob rid t).1
      = { statusCode := 200, status := "pending", request_id := rid } ∨
    (∃ row, getItem t rid = some row ∧
      (statusHandler d l ob rid t).1 = buildResponse rid row.job_id row.status row) ∨
    (∃ row jid bk, getItem t rid = some row ∧ row.job_id = some jid ∧ candOk jid bk = true ∧
      (statusHandler d l ob rid t).1
        = buildResponse rid row.job_id "complete"
            ({ row with output_key := some (row.output_key.getD bk),
                        output_bucket := some (row.output_bucket.getD ob) })) := by
  unfold statusHandler
  rcases hrow : getItem t rid with _ | row
  · left
    rfl
  · dsimp only
    rcases hjid : row.job_id with _ | jid
    · right
      left
      refine ⟨row, rfl, ?_⟩
      rw [hjid]
    · dsimp only
      by_cases hst : row.status = "in_progress" ∨ row.status = "processing"
      · rw [if_pos hst]
        rcases checkTranslateComplete_cases (d jid) l ob rid jid t with ⟨_, h1⟩ | ⟨bk, hcand, h1, _⟩
        · right
          left
          refine ⟨row, rfl, ?_⟩
          rw [h1, hjid]
        · right
          right
          refine ⟨row, jid, bk, rfl, hjid, hcand, ?_⟩
          rw [h1, hjid]
      · rw [if_neg hst]
        right
        left
        refine ⟨row, rfl, ?_⟩
        rw [hjid]

/-- C8: auxiliary output artifacts never drive completion and never appear
as download targets: the notifier skips an auxiliary key entirely (table
unchanged); across any operation sequence, no stored record's `output_key`
is auxiliary — in particular the resolver's reconciliation never writes
one — and any `download_url` a status call returns points at a
non-auxiliary key. -/
theorem c8_auxiliary_artifacts (env : TriggerEnv) (ops : List Op)
    (d : String → Option String) (l : Option (List (String × Nat)))
    (rid b k : String) (hk : isAuxKey k = true) :
    notifyRecord env.tableName b k (runOps env ops World.empty).table
      = (runOps env ops World.empty).table ∧
    (∀ p ∈ (runOps env ops World.empty).table, ∀ k2,
       p.2.output_key = some k2 → isAuxKey k2 = false) ∧
    (∀ p ∈ (statusHandler d l env.outputBucket rid (runOps env ops World.empty).table).2,
       ∀ k2, p.2.output_key = some k2 → isAuxKey k2 = false) ∧
    (∀ ref, (statusHandler d l env.outputBucket rid
        (runOps env ops World.empty).table).1.download_url = some ref →
       isAuxKey ref.key = false) := by
  have hinv := storeInv_of_empty env ops
  refine ⟨?_, ?_, ?_, ?_⟩
  · unfold notifyRecord
    rw [if_pos hk]
  · intro p hp k2 hk2
    exact (hinv.2 p hp).2.2 k2 hk2
  · have h2 := storeInv_of_empty env (ops ++ [Op.resolve d l rid])
    have h3 : (runOps env (ops ++ [Op.resolve d l rid]) World.empty).table
        = (statusHandler d l env.outputBucket rid (runOps env ops World.empty).table).2 := by
      unfold runOps
      rw [List.foldl_append]
      rfl
    rw [h3] at h2
    intro p hp k2 hk2
    exact (h2.2 p hp).2.2 k2 hk2
  · intro ref href
    rcases statusHandler_resp_cases d l env.outputBucket rid (runOps env ops World.empty).table
      with h1 | ⟨row, hrow, h1⟩ | ⟨row, jid, bk, hrow, hjid, hcand, h1⟩
    · rw [h1] at href
      simp at href
    · rw [h1] at href
      rcases buildResponse_download _ _ _ _ _ href with ⟨k2, hk2, hkey⟩
      rw [hkey]
      exact (hinv.2 _ (getItem_mem _ _ _ hrow)).2.2 k2 hk2
    · rw [h1] at href
      rcases buildResponse_download _ _ _ _ _ href with ⟨k2, hk2, hkey⟩
      rw [hkey]
      have hk3 : row.output_key.getD bk = k2 := by
        simpa using hk2
      rcases hko : row.output_key with _ | k3
      · rw [hko] at hk3
        simp only [Option.getD_none] at hk3
        rw [← hk3]
        exact candOk_not_aux jid bk hcand
      · rw [hko] at hk3
        simp only [Option.getD_some] at hk3
        rw [← hk3]
        exact (hinv.2 _ (getItem_mem _ _ _ hrow)).2.2 k3 hko

/-- Witness for `c8_auxiliary_artifacts` at a concrete auxiliary key. -/
theorem c8_auxiliary_artifacts_witness :
    notifyRecord ({} : TriggerEnv).tableName "out" "x/details/y.json"
      (runOps {} [] World.empty).table = (runOps {} [] World.empty).table ∧
    (∀ p ∈ (runOps {} [] World.empty).table, ∀ k2,
       p.2.output_key = some k2 → isAuxKey k2 = false) ∧
    (∀ p ∈ (statusHandler (fun _ => none) none ({} : TriggerEnv).outputBucket "r1"
        (runOps {} [] World.empty).table).2,
       ∀ k2, p.2.output_key = some k2 → isAuxKey k2 = false) ∧
    (∀ ref, (statusHandler (fun _ => none) none ({} : TriggerEnv).outputBucket "r1"
        (runOps {} [] World.empty).table).1.download_url = some ref →
       isAuxKey ref.key = false) :=
  c8_auxiliary_artifacts {} [] (fun _ => none) none "r1" "out" "x/details/y.json" (by decide)

/-! ## Claim C10 -/

/-- C10: a missing target language silently defaults to `"es"` and a missing
or empty source language to `"auto"` at every entry point: the intake sync
path calls the translator with `("auto", "es")`; the intake async path
stores the object with `target-language = "es"`, `source-language = "auto"`
and writes the record with `target_language = "es"`; the presigned-URL
handler attaches the same metadata defaults; and the orchestrator, reading
object metadata with both keys absent, starts the batch job with source
`"auto"` and target codes `["es"]` and records `target_language = "es"` —
no entry point rejects the request for the missing language. -/
theorem c10_language_defaults :
    (∀ (ts : List Nat → String → String → String → List Nat) (rid ib : String)
       (tn : Option String) (content : List Nat) (fn : String) (t : Store),
      content.length ≤ SYNC_MAX_BYTES →
      (contentTypeOfExt (toLowerStr (splitextExt fn)) = "text/html" ∨
       contentTypeOfExt (toLowerStr (splitextExt fn)) = "text/plain") →
      (uploadHandler ts rid ib tn { file := some content, filename := fn } t).outcome
        = .syncTranslated
            (ts content (contentTypeOfExt (toLowerStr (splitextExt fn))) "auto" "es") fn) ∧
    (∀ (ts : List Nat → String → String → String → List Nat) (rid ib nm : String)
       (content : List Nat) (fn : String) (t : Store),
      ¬ (content.length ≤ SYNC_MAX_BYTES ∧
          (contentTypeOfExt (toLowerStr (splitextExt fn)) = "text/html" ∨
           contentTypeOfExt (toLowerStr (splitextExt fn)) = "text/plain")) →
      ¬ content.length > 5 * 1024 * 1024 →
      (uploadHandler ts rid ib (some nm) { file := some content, filename := fn } t).stored
        = [⟨ib, "uploads/" ++ rid ++ "/" ++ fn, content,
            contentTypeOfExt (toLowerStr (splitextExt fn)), "es", "auto"⟩] ∧
      (uploadHandler ts rid ib (some nm) { file := some content, filename := fn } t).table
        = putItem t rid (intakeRecord "es" fn)) ∧
    (∀ rid fn : String,
      (presignedHandler rid (some fn) none none).metaTarget = "es" ∧
      (presignedHandler rid (some fn) none none).metaSource = "auto" ∧
      (presignedHandler rid (some fn) none (some "")).metaSource = "auto") ∧
    (∀ (env : TriggerEnv) (ex : ExtractionResult) (tok key : String) (w : World)
       (nm : String),
      env.tableName = some nm →
      startsWithStr key "uploads/" = true → endsWithStr key "/" = false →
      BATCH_TYPES.contains (extOfKey key) = true → ridOfKey key ≠ "" →
      (handleRecord env (some { targetLanguage := none, sourceLanguage := none })
          ex tok key w).jobsStarted
        = w.jobsStarted ++
          [⟨"s3://" ++ env.inputBucket ++ "/" ++ prefixOfKey key,
            "s3://" ++ env.outputBucket ++ "/", "auto", ["es"],
            batchContentType (extOfKey key)⟩] ∧
      (handleRecord env (some { targetLanguage := none, sourceLanguage := none })
          ex tok key w).table
        = putItem w.table (ridOfKey key)
            (orchestratorRecord ("job-" ++ toString w.jobCounter) "es"
              (((splitSlash key).getLast?).getD "document"))) := by
  refine ⟨?_, ?_, ?_, ?_⟩
  · intro ts rid ib tn content fn t hlen hct
    rw [uploadHandler_sync ts rid ib tn content fn none none t hlen hct]
    rfl
  · intro ts rid ib nm content fn t hns hsize
    rw [uploadHandler_async ts rid ib (some nm) content fn none none t hns hsize]
    exact ⟨rfl, rfl⟩
  · intro rid fn
    exact ⟨rfl, rfl, rfl⟩
  · intro env ex tok key w nm htn hg hg2 hb hrid
    have hguard : ¬ (¬ startsWithStr key "uploads/" = true ∨ endsWithStr key "/" = true) := by
      rw [hg, hg2]
      simp
    have hsj : startJobForKey env ex tok
        (sourceLangOrAuto ({ targetLanguage := none, sourceLanguage := none } : HeadMeta).sourceLanguage)
        (if ({ targetLanguage := none, sourceLanguage := none } : HeadMeta).targetLanguage.getD "es" ≠ ""
         then [({ targetLanguage := none, sourceLanguage := none } : HeadMeta).targetLanguage.getD "es"]
         else ["es"]) key w
      = ({ w with
            jobsStarted := w.jobsStarted ++
              [⟨"s3://" ++ env.inputBucket ++ "/" ++ prefixOfKey key,
                "s3://" ++ env.outputBucket ++ "/", "auto", ["es"],
                batchContentType (extOfKey key)⟩],
            jobCounter := w.jobCounter + 1 },
         Except.ok ("job-" ++ toString w.jobCounter)) := by
      unfold startJobForKey
      rw [if_pos hb]
      rfl
    have hone : handleRecord env (some { targetLanguage := none, sourceLanguage := none })
        ex tok key w
      = { w with
          jobsStarted := w.jobsStarted ++
            [⟨"s3://" ++ env.inputBucket ++ "/" ++ prefixOfKey key,
              "s3://" ++ env.outputBucket ++ "/", "auto", ["es"],
              batchContentType (extOfKey key)⟩],
          jobCounter := w.jobCounter + 1,
          table := putItem w.table (ridOfKey key)
            (orchestratorRecord ("job-" ++ toString w.jobCounter) "es"
              (((splitSlash key).getLast?).getD "document")) } := by
      unfold handleRecord
      rw [if_neg hguard, processUpload_some_eq, hsj]
      dsimp only
      rw [htn]
      dsimp only
      rw [if_pos hrid]
      rfl
    rw [hone]
    exact ⟨rfl, rfl⟩

/-- Witness for `c10_language_defaults` at concrete requests omitting the
languages. -/
theorem c10_language_defaults_witness :
    ((uploadHandler (fun c _ _ _ => c) "r1" "in" (some "T")
        { file := some [104, 105], filename := "a.txt" } []).outcome
      = .syncTranslated ((fun (c : List Nat) (_ _ _ : String) => c) [104, 105]
          (contentTypeOfExt (toLowerStr (splitextExt "a.txt"))) "auto" "es") "a.txt") ∧
    ((presignedHandler "r2" (some "b.pdf") none none).metaTarget = "es" ∧
     (presignedHandler "r2" (some "b.pdf") none none).metaSource = "auto" ∧
     (presignedHandler "r2" (some "b.pdf") none (some "")).metaSource = "auto") ∧
    ((handleRecord {} (some { targetLanguage := none, sourceLanguage := none })
        (.succeeded []) "tok" "uploads/r3/c.txt" World.empty).jobsStarted
      = World.empty.jobsStarted ++
        [⟨"s3://" ++ ({} : TriggerEnv).inputBucket ++ "/" ++ prefixOfKey "uploads/r3/c.txt",
          "s3://" ++ ({} : TriggerEnv).outputBucket ++ "/", "auto", ["es"],
          batchContentType (extOfKey "uploads/r3/c.txt")⟩] ∧
     (handleRecord {} (some { targetLanguage := none, sourceLanguage := none })
        (.succeeded []) "tok" "uploads/r3/c.txt" World.empty).table
      = putItem World.empty.table (ridOfKey "uploads/r3/c.txt")
          (orchestratorRecord ("job-" ++ toString World.empty.jobCounter) "es"
            (((splitSlash "uploads/r3/c.txt").getLast?).getD "document"))) :=
  ⟨c10_language_defaults.1 (fun c _ _ _ => c) "r1" "in" (some "T") [104, 105] "a.txt" []
      (by decide) (Or.inr (by decide)),
   c10_language_defaults.2.2.1 "r2" "b.pdf",
   c10_language_defaults.2.2.2 {} (.succeeded []) "tok" "uploads/r3/c.txt" World.empty "jobs"
      rfl (by decide) (by decide) (by decide) (by decide)⟩

end PolyLingo
